import Mathlib

/-!
# Verification of the BUK protocol booking contracts

A shallow embedding of the `BukTrips` factory contract together with the
per-supplier `SupplierContract` (token ledger) and `SupplierUtilityContract`
(utility token ledger), translated from the Solidity sources.

Modelling conventions:

* `uint256` values are modelled as `Nat`.  Solidity 0.8 uses checked
  arithmetic, so an overflow reverts the transaction; every claim studied
  here concerns control flow that is reached only with values far below
  `2^256`, and a revert leaves the state unchanged, so the unbounded model
  is conservative for the properties proved below.
* Addresses are modelled as `Nat` (`Address`).
* Solidity mappings are modelled as total functions with the zero/default
  value at unset keys, exactly as the EVM storage model provides.
* A reverting call (failed `require`, custom error, or arithmetic panic) is
  modelled as `Except.error e`: the transaction aborts and no state change
  survives, which is exactly the EVM semantics.  A call that completes
  normally is `Except.ok` carrying the post-state.
* External calls whose *outcome* is an input to the contract logic
  (the ERC20 `transferFrom` return values inside `bookRoom`) are modelled
  by explicit boolean parameters; every `transferFrom` *call issued* is
  recorded in a transfer log so that fund-movement claims can be stated.
  Treasury refund instructions (`cancelUSDCRefund`) are likewise recorded
  in a refund log.
-/

abbrev Address := Nat

/-- `enum BookingStatus {nil, booked, confirmed, cancelled, expired}` from
`BukTrips`. -/
inductive BookingStatus where
  | nil
  | booked
  | confirmed
  | cancelled
  | expired
deriving DecidableEq, Repr

/-- `struct Booking` from `BukTrips`: id, status, tokenID, owner,
supplierId, checkin, checkout, total, baseRate. -/
structure Booking where
  id : Nat
  status : BookingStatus
  tokenID : Nat
  owner : Address
  supplierId : Nat
  checkin : Nat
  checkout : Nat
  total : Nat
  baseRate : Nat
deriving DecidableEq, Repr

/-- The all-zero record a Solidity `mapping(uint256 => Booking)` yields at an
unset key. -/
def Booking.empty : Booking :=
  ⟨0, .nil, 0, 0, 0, 0, 0, 0, 0⟩

/-- `struct SupplierDetails` from `BukTrips`: id, status (active flag),
supplier contract address, supplier owner, utility contract address. -/
structure SupplierDetails where
  id : Nat
  status : Bool
  supplier_contract : Address
  supplier_owner : Address
  utility_contract : Address
deriving DecidableEq, Repr

/-- State of one `SupplierUtilityContract` (ERC1155 utility token ledger):
balances, token URIs (`bookingTickets`).  The contract has no per-token
transferability flag at all: its `_safeTransferFrom` and
`_safeBatchTransferFrom` overrides revert unconditionally. -/
structure UtilState where
  balances : Address → Nat → Nat
  bookingTickets : Nat → String
  supplierRole : Address → Bool
  factoryRole : Address → Bool

/-- State of one `SupplierContract` (ERC1155 active token ledger):
balances, token URIs (`bookingTickets`), per-token `transferable` flag, and
the paired utility contract address stored at construction. -/
structure LedgerState where
  balances : Address → Nat → Nat
  bookingTickets : Nat → String
  transferable : Nat → Bool
  utility_contract : Address

/-- Error taxonomy for a reverted call, following the spec's classes.
The string carries the exact revert message from the source.  `arith` is a
Solidity arithmetic panic (e.g. `uint256` subtraction underflow) or an
out-of-bounds memory array access. -/
inductive BukError where
  | authorization (msg : String)
  | state (msg : String)
  | validation (msg : String)
  | arith (msg : String)
deriving DecidableEq, Repr

/-- One ERC20 `transferFrom(src, dst, amount)` call issued by `bookRoom`
(whether or not the ledger reports success). -/
structure Transfer where
  src : Address
  dst : Address
  amount : Nat
deriving DecidableEq, Repr

/-- One `ITreasury.cancelUSDCRefund(amount, recipient)` instruction. -/
structure RefundCall where
  amount : Nat
  recipient : Address
deriving DecidableEq, Repr

/-- One `SupplierContract.mint(id, account, amount, "", uri, status)` call
issued by `confirmRoom`. -/
structure MintCall where
  id : Nat
  account : Address
  amount : Nat
  uri : String
  transferableStatus : Bool
deriving DecidableEq, Repr

/-- One `SupplierContract.burn(account, id, amount, utility)` call. -/
structure BurnCall where
  account : Address
  id : Nat
  amount : Nat
  utility : Bool
deriving DecidableEq, Repr

/-- Storage of the `BukTrips` factory contract, together with the states of
the supplier and utility ledgers it dispatches into (indexed by contract
address) and the `ADMIN_ROLE` table. -/
structure BukState where
  buk_wallet : Address
  currency : Address
  treasury : Address
  commission : Nat
  supplierIds : Nat
  bookingIds : Nat
  bookingDetails : Nat → Booking
  timeLocks : Nat → Nat → Nat
  suppliers : Nat → SupplierDetails
  isAdmin : Address → Bool
  ledgers : Address → LedgerState
  utils : Address → UtilState

namespace SupplierUtilityContract

/-- `SupplierUtilityContract.mint`: credits the balance and stores the URI.
Caller must hold `SUPPLIER_CONTRACT_ROLE`. -/
def mint (us : UtilState) (caller account : Address) (id amount : Nat)
    (newuri : String) : Except BukError UtilState :=
  if us.supplierRole caller then
    .ok { us with
          balances := fun a k =>
            if a = account ∧ k = id then us.balances a k + amount
            else us.balances a k
          bookingTickets := fun k =>
            if k = id then newuri else us.bookingTickets k }
  else .error (.authorization "AccessControl: account is missing role")

/-- `SupplierUtilityContract.setURI`: stores a new URI for a token id.
Caller must hold `FACTORY_CONTRACT_ROLE`. -/
def setURI (us : UtilState) (caller : Address) (id : Nat) (newuri : String) :
    Except BukError UtilState :=
  if us.factoryRole caller then
    .ok { us with
          bookingTickets := fun k =>
            if k = id then newuri else us.bookingTickets k }
  else .error (.authorization "AccessControl: account is missing role")

/-- `SupplierUtilityContract._safeTransferFrom` override: unconditional
`revert NonTransferable("Token transfer not allowed.")`.  The inherited
public `safeTransferFrom` entry point delegates every transfer to this
hook, so every transfer attempt on a utility ledger ends here. -/
def safeTransferFrom (_us : UtilState) (_caller _sender _recipient : Address)
    (_id _amount : Nat) : Except BukError UtilState :=
  .error (.validation "NonTransferable: Token transfer not allowed.")

/-- `SupplierUtilityContract._safeBatchTransferFrom` override: unconditional
`revert NonTransferable("Token transfer not allowed.")`. -/
def safeBatchTransferFrom (_us : UtilState) (_caller _sender _recipient : Address)
    (_ids _amounts : List Nat) : Except BukError UtilState :=
  .error (.validation "NonTransferable: Token transfer not allowed.")

/-- Operations on a utility ledger, for quantifying over arbitrary call
sequences. -/
inductive UtilOp where
  | mintOp (caller account : Address) (id amount : Nat) (newuri : String)
  | setURIOp (caller : Address) (id : Nat) (newuri : String)
  | transferOp (caller sender recipient : Address) (id amount : Nat)
  | batchTransferOp (caller sender recipient : Address) (ids amounts : List Nat)

/-- Apply one utility-ledger operation; a reverted call leaves the state
unchanged. -/
def applyOp (us : UtilState) : UtilOp → UtilState
  | .mintOp caller account id amount newuri =>
      match mint us caller account id amount newuri with
      | .ok us2 => us2
      | .error _ => us
  | .setURIOp caller id newuri =>
      match setURI us caller id newuri with
      | .ok us2 => us2
      | .error _ => us
  | .transferOp caller sender recipient id amount =>
      match safeTransferFrom us caller sender recipient id amount with
      | .ok us2 => us2
      | .error _ => us
  | .batchTransferOp caller sender recipient ids amounts =>
      match safeBatchTransferFrom us caller sender recipient ids amounts with
      | .ok us2 => us2
      | .error _ => us

/-- Apply a sequence of utility-ledger operations. -/
def applyOps (us : UtilState) : List UtilOp → UtilState
  | [] => us
  | op :: rest => applyOps (applyOp us op) rest

end SupplierUtilityContract

namespace SupplierContract

/-- `SupplierContract.mint(_id, account, amount, data, _uri, _status)`:
sets `transferable[_id] := _status`, credits the balance, stores the URI.
(The `FACTORY_CONTRACT_ROLE` gate is satisfied by construction when the
factory contract calls in, as in every call site modelled here.) -/
def mint (led : LedgerState) (id : Nat) (account : Address) (amount : Nat)
    (uri : String) (status : Bool) : LedgerState :=
  { led with
    transferable := fun k => if k = id then status else led.transferable k
    balances := fun a k =>
      if a = account ∧ k = id then led.balances a k + amount
      else led.balances a k
    bookingTickets := fun k => if k = id then uri else led.bookingTickets k }

/-- `SupplierContract.burn(account, id, amount, utility)`: captures the
stored URI, clears it, forwards a utility-ledger mint when `utility` is
true, then burns the balance (`_burn` reverts when the balance is below
`amount`).  Returns the updated ledger and paired-utility states. -/
def burn (led : LedgerState) (us : UtilState) (ledgerAddr : Address)
    (account : Address) (id amount : Nat) (utility : Bool) :
    Except BukError (LedgerState × UtilState) :=
  let uri0 := led.bookingTickets id
  let led1 := { led with
    bookingTickets := fun k => if k = id then "" else led.bookingTickets k }
  match (if utility then
          SupplierUtilityContract.mint us ledgerAddr account id amount uri0
         else .ok us) with
  | .error e => .error e
  | .ok us1 =>
    if amount ≤ led1.balances account id then
      .ok ({ led1 with
             balances := fun a k =>
               if a = account ∧ k = id then led1.balances a k - amount
               else led1.balances a k }, us1)
    else .error (.arith "ERC1155: burn amount exceeds balance")

/-- `SupplierContract.toggleNFTStatus(_id, _status)`: sets the
transferability flag (factory-role gated at the call sites modelled here). -/
def toggleNFTStatus (led : LedgerState) (id : Nat) (status : Bool) :
    LedgerState :=
  { led with
    transferable := fun k => if k = id then status else led.transferable k }

end SupplierContract

namespace BukTrips

/-- The booking-creation loop of `bookRoom`: for each `(total, baseRate)`
pair it increments the booking counter, writes a fresh `booked` record, and
accumulates the running `total` and `commissionTotal`
(`_baseRate[i]*commission/100`, truncating division).  Returns the final
counter, booking table, total, and commission total. -/
def bookLoop (sender : Address) (supplierId checkin checkout_ commission : Nat) :
    List (Nat × Nat) → Nat → (Nat → Booking) → Nat → Nat →
    Nat × (Nat → Booking) × Nat × Nat
  | [], ids, bd, tot, comm => (ids, bd, tot, comm)
  | (t, r) :: rest, ids, bd, tot, comm =>
      let bid := ids + 1
      let bd1 : Nat → Booking := fun k =>
        if k = bid then
          ⟨bid, .booked, 0, sender, supplierId, checkin, checkout_, t, r⟩
        else bd k
      bookLoop sender supplierId checkin checkout_ commission rest
        bid bd1 (tot + t) (comm + r * commission / 100)

/-- The commission total `bookRoom` charges for a list of base rates:
per-room truncating `baseRate * commission / 100`, summed. -/
def commissionTotalOf (commission : Nat) (baseRates : List Nat) : Nat :=
  (baseRates.map (fun r => r * commission / 100)).sum

/-- `BukTrips.bookRoom`.  The two ERC20 `transferFrom` outcomes are inputs
(`commissionOk`, `paymentOk`); every `transferFrom` call issued is logged in
order.  Returns the post-state, the transfer log, and the boolean result. -/
def bookRoom (s : BukState) (sender : Address) (supplierId count : Nat)
    (totals baseRates : List Nat) (checkin checkout_ : Nat)
    (commissionOk paymentOk : Bool) :
    Except BukError (BukState × List Transfer × Bool) :=
  if (s.suppliers supplierId).status then
    if count ≤ totals.length ∧ count ≤ baseRates.length then
      match bookLoop sender supplierId checkin checkout_ s.commission
          ((totals.take count).zip (baseRates.take count))
          s.bookingIds s.bookingDetails 0 0 with
      | (ids1, bd1, total, commTotal) =>
        let s1 := { s with bookingIds := ids1, bookingDetails := bd1 }
        let t1 : Transfer := ⟨sender, s.buk_wallet, commTotal⟩
        if commissionOk then
          let t2 : Transfer := ⟨sender, s.treasury, total⟩
          if paymentOk then
            .ok (s1, [t1, t2], true)
          else
            .ok (s1, [t1, t2, ⟨s.buk_wallet, sender, commTotal⟩,
                      ⟨s.treasury, sender, total⟩], false)
        else
          .ok (s1, [t1, ⟨s.buk_wallet, sender, commTotal⟩], false)
    else .error (.arith "array index out of bounds")
  else .error (.validation "Supplier not registered")

/-- The per-item validation loop of `confirmRoom`: for each id, in order,
`require(status == booked)` then `require(owner == msgSender)`.  Returns the
first revert, if any. -/
def confirmValidate (sender : Address) (bd : Nat → Booking) :
    List Nat → Option BukError
  | [] => none
  | i :: rest =>
      if (bd i).status ≠ BookingStatus.booked then
        some (.state "Check the Booking status")
      else if (bd i).owner ≠ sender then
        some (.authorization "Only booking owner has access")
      else confirmValidate sender bd rest

/-- The mutation loop of `confirmRoom`: per item, set the status to
`confirmed`, mint a token of amount 1 to the booking's owner on the
supplier's ledger, then set `tokenID` to the booking id.  Also records the
mint calls issued, in order. -/
def confirmLoop (nftStatus : Bool) :
    List (Nat × String) → (Nat → Booking) → LedgerState → List MintCall →
    (Nat → Booking) × LedgerState × List MintCall
  | [], bd, led, log => (bd, led, log.reverse)
  | (i, u) :: rest, bd, led, log =>
      let bd1 : Nat → Booking := fun k =>
        if k = i then { bd i with status := .confirmed } else bd k
      let led1 := SupplierContract.mint led i (bd1 i).owner 1 u nftStatus
      let bd2 : Nat → Booking := fun k =>
        if k = i then { bd1 i with tokenID := i } else bd1 k
      confirmLoop nftStatus rest bd2 led1
        (⟨i, (bd1 i).owner, 1, u, nftStatus⟩ :: log)

/-- `BukTrips.confirmRoom`.  Requires an active supplier, then validates
every id (status `booked`, owner is the caller), then checks the ids/uris
length match and the `< 11` batch cap, then runs the mutation loop against
the supplier's ledger. -/
def confirmRoom (s : BukState) (sender : Address) (supplierId : Nat)
    (ids : List Nat) (uris : List String) (nftStatus : Bool) :
    Except BukError (BukState × List MintCall) :=
  if (s.suppliers supplierId).status then
    match confirmValidate sender s.bookingDetails ids with
    | some e => .error e
    | none =>
      if ids.length = uris.length then
        if ids.length < 11 then
          let lc := (s.suppliers supplierId).supplier_contract
          match confirmLoop nftStatus (ids.zip uris)
              s.bookingDetails (s.ledgers lc) [] with
          | (bd2, led2, log) =>
            .ok ({ s with
                   bookingDetails := bd2
                   ledgers := fun a => if a = lc then led2 else s.ledgers a },
                 log)
        else .error (.validation "Exceeds max room booking limit")
      else .error (.validation "Check Ids and URIs size")
  else .error (.validation "Supplier not registered")

/-- The per-item validation loop of `checkout`:
`require(status == confirmed)` for each id, in order. -/
def checkoutValidate (bd : Nat → Booking) : List Nat → Option BukError
  | [] => none
  | i :: rest =>
      if (bd i).status ≠ BookingStatus.confirmed then
        some (.state "Check the Booking status")
      else checkoutValidate bd rest

/-- The mutation loop of `checkout`: per item, set the status to `expired`
and burn the token (amount 1, with utility-ledger mint) from the booking's
owner on the supplier's ledger.  Records the burn calls issued. -/
def checkoutLoop (ledgerAddr : Address) :
    List Nat → (Nat → Booking) → LedgerState → UtilState → List BurnCall →
    Except BukError ((Nat → Booking) × LedgerState × UtilState × List BurnCall)
  | [], bd, led, us, log => .ok (bd, led, us, log.reverse)
  | i :: rest, bd, led, us, log =>
      let bd1 : Nat → Booking := fun k =>
        if k = i then { bd i with status := .expired } else bd k
      match SupplierContract.burn led us ledgerAddr (bd1 i).owner i 1 true with
      | .error e => .error e
      | .ok (led1, us1) =>
          checkoutLoop ledgerAddr rest bd1 led1 us1
            (⟨(bd1 i).owner, i, 1, true⟩ :: log)

/-- `BukTrips.checkout`.  Admin-only; requires an active supplier, the
`< 11` batch cap, then every booking `confirmed`; then expires each booking
and burns its token (forwarding a utility-ledger mint). -/
def checkout (s : BukState) (sender : Address) (supplierId : Nat)
    (ids : List Nat) : Except BukError (BukState × List BurnCall) :=
  if s.isAdmin sender then
    if (s.suppliers supplierId).status then
      if ids.length < 11 then
        match checkoutValidate s.bookingDetails ids with
        | some e => .error e
        | none =>
          let lc := (s.suppliers supplierId).supplier_contract
          let ua := (s.ledgers lc).utility_contract
          match checkoutLoop lc ids s.bookingDetails (s.ledgers lc)
              (s.utils ua) [] with
          | .error e => .error e
          | .ok (bd2, led2, us2, log) =>
            .ok ({ s with
                   bookingDetails := bd2
                   ledgers := fun a => if a = lc then led2 else s.ledgers a
                   utils := fun a => if a = ua then us2 else s.utils a },
                 log)
      else .error (.validation "Exceeds max room booking limit")
    else .error (.validation "Supplier not registered")
  else .error (.authorization "AccessControl: account is missing role")

/-- `BukTrips.cancelRoom`.  Admin-only; requires an active supplier and the
booking `confirmed` (the source's revert message for that check reads
"Supplier not registered").  Sets the status to `cancelled`, issues three
treasury refund instructions (penalty to the owner of the supplier stored
in the booking, refund to the booking owner, charges to the Buk wallet),
then burns the token, without utility-ledger issuance, on the ledger of the
supplier passed as argument. -/
def cancelRoom (s : BukState) (sender : Address)
    (supplierId id penalty refundAmt charges : Nat) :
    Except BukError (BukState × List RefundCall × BurnCall) :=
  if s.isAdmin sender then
    if (s.suppliers supplierId).status then
      if (s.bookingDetails id).status = BookingStatus.confirmed then
        let lc := (s.suppliers supplierId).supplier_contract
        let bd1 : Nat → Booking := fun k =>
          if k = id then { s.bookingDetails id with status := .cancelled }
          else s.bookingDetails k
        let refunds : List RefundCall :=
          [⟨penalty, (s.suppliers (bd1 id).supplierId).supplier_owner⟩,
           ⟨refundAmt, (bd1 id).owner⟩,
           ⟨charges, s.buk_wallet⟩]
        let ua := (s.ledgers lc).utility_contract
        match SupplierContract.burn (s.ledgers lc) (s.utils ua) lc
            (bd1 id).owner id 1 false with
        | .error e => .error e
        | .ok (led1, us1) =>
          .ok ({ s with
                 bookingDetails := bd1
                 ledgers := fun a => if a = lc then led1 else s.ledgers a
                 utils := fun a => if a = ua then us1 else s.utils a },
               refunds, ⟨(bd1 id).owner, id, 1, false⟩)
      else .error (.state "Supplier not registered")
    else .error (.validation "Supplier not registered")
  else .error (.authorization "AccessControl: account is missing role")

/-- The first validation loop of `bookingRefund`:
`require(status == booked)` for each id, in order. -/
def refundStatusValidate (bd : Nat → Booking) : List Nat → Option BukError
  | [] => none
  | i :: rest =>
      if (bd i).status ≠ BookingStatus.booked then
        some (.state "Check the Booking status")
      else refundStatusValidate bd rest

/-- The second validation loop of `bookingRefund`:
`require(owner == _owner)` for each id, in order. -/
def refundOwnerValidate (owner : Address) (bd : Nat → Booking) :
    List Nat → Option BukError
  | [] => none
  | i :: rest =>
      if (bd i).owner ≠ owner then
        some (.validation "Check the booking owner")
      else refundOwnerValidate owner bd rest

/-- The mutation loop of `bookingRefund`: per item, set the status to
`cancelled` and accumulate `total + baseRate*commission/100`. -/
def refundLoop (commission : Nat) :
    List Nat → (Nat → Booking) → Nat → (Nat → Booking) × Nat
  | [], bd, tot => (bd, tot)
  | i :: rest, bd, tot =>
      let bd1 : Nat → Booking := fun k =>
        if k = i then { bd i with status := .cancelled } else bd k
      refundLoop commission rest bd1
        (tot + (bd1 i).total + (bd1 i).baseRate * commission / 100)

/-- `BukTrips.bookingRefund`.  Admin-only; requires an active supplier,
every booking `booked`, then every booking owned by `owner`; cancels them
all and issues a single treasury refund of the accumulated total to
`owner`.  There is no batch-size cap in this function. -/
def bookingRefund (s : BukState) (sender : Address) (supplierId : Nat)
    (ids : List Nat) (owner : Address) :
    Except BukError (BukState × RefundCall) :=
  if s.isAdmin sender then
    if (s.suppliers supplierId).status then
      match refundStatusValidate s.bookingDetails ids with
      | some e => .error e
      | none =>
        match refundOwnerValidate owner s.bookingDetails ids with
        | some e => .error e
        | none =>
          match refundLoop s.commission ids s.bookingDetails 0 with
          | (bd1, total) =>
            .ok ({ s with bookingDetails := bd1 }, ⟨total, owner⟩)
    else .error (.validation "Supplier not registered")
  else .error (.authorization "AccessControl: account is missing role")

/-- `BukTrips.toggleNFTStatus`.  The `checkAccess` modifier requires the
caller to be an admin or the booking's owner; then
`require(tokenID > 0)`, then `require(block.timestamp < checkin -
TimeLocks[supplierId][id])` (the `uint256` subtraction reverts when the
lock exceeds the check-in time); on success the transferability flag on
the booking's supplier's ledger is set to `status`. -/
def toggleNFTStatus (s : BukState) (now : Nat) (sender : Address)
    (id : Nat) (status : Bool) : Except BukError BukState :=
  if s.isAdmin sender ∨ sender = (s.bookingDetails id).owner then
    if (s.bookingDetails id).tokenID > 0 then
      let lock := s.timeLocks (s.bookingDetails id).supplierId id
      if lock ≤ (s.bookingDetails id).checkin then
        let threshold := (s.bookingDetails id).checkin - lock
        if now < threshold then
          let lc := (s.suppliers (s.bookingDetails id).supplierId).supplier_contract
          .ok { s with
                ledgers := fun a =>
                  if a = lc then
                    SupplierContract.toggleNFTStatus (s.ledgers lc) id status
                  else s.ledgers a }
        else .error (.state "NFT toggle not possible now")
      else .error (.arith "arithmetic underflow")
    else .error (.state "NFT does not exist")
  else .error (.authorization "Caller does not have access")

/-- An empty `SupplierContract` ledger state paired with utility contract
`ua`: zero balances, empty URIs, all tokens non-transferable. -/
def emptyLedger (ua : Address) : LedgerState :=
  ⟨fun _ _ => 0, fun _ => "", fun _ => false, ua⟩

/-- An empty `SupplierUtilityContract` state whose
`SUPPLIER_CONTRACT_ROLE` is held exactly by `sc`. -/
def emptyUtil (sc : Address) : UtilState :=
  ⟨fun _ _ => 0, fun _ => "", fun c => c == sc, fun _ => false⟩

/-- A concrete factory state used in the witnesses below: admin address 1,
Buk wallet 9, currency 8, treasury 7, commission 5%, two registered active
suppliers (ids 1 and 2 with token ledgers at addresses 100/101, owners
50/51, utility ledgers at 200/201), and no bookings yet. -/
def s0 : BukState where
  buk_wallet := 9
  currency := 8
  treasury := 7
  commission := 5
  supplierIds := 2
  bookingIds := 0
  bookingDetails := fun _ => Booking.empty
  timeLocks := fun _ _ => 0
  suppliers := fun k =>
    if k = 1 then ⟨1, true, 100, 50, 200⟩
    else if k = 2 then ⟨2, true, 101, 51, 201⟩
    else ⟨0, false, 0, 0, 0⟩
  isAdmin := fun a => a == 1
  ledgers := fun a =>
    if a = 100 then emptyLedger 200
    else if a = 101 then emptyLedger 201
    else emptyLedger 0
  utils := fun a =>
    if a = 200 then emptyUtil 100
    else if a = 201 then emptyUtil 101
    else emptyUtil 0

/-- The booking-mutating operations of the orchestrator, for quantifying
over arbitrary call sequences. -/
inductive Op where
  | book (sender : Address) (supplierId count : Nat)
      (totals baseRates : List Nat) (checkin checkout_ : Nat)
      (commissionOk paymentOk : Bool)
  | confirm (sender : Address) (supplierId : Nat) (ids : List Nat)
      (uris : List String) (nftStatus : Bool)
  | checkoutRooms (sender : Address) (supplierId : Nat) (ids : List Nat)
  | cancel (sender : Address) (supplierId id penalty refundAmt charges : Nat)
  | refund (sender : Address) (supplierId : Nat) (ids : List Nat)
      (owner : Address)

/-- Execute one operation, discarding the call logs. -/
def step (s : BukState) : Op → Except BukError BukState
  | .book sender supplierId count totals baseRates checkin checkout_ c p =>
      (bookRoom s sender supplierId count totals baseRates checkin checkout_
        c p).map (fun r => r.1)
  | .confirm sender supplierId ids uris nftStatus =>
      (confirmRoom s sender supplierId ids uris nftStatus).map (fun r => r.1)
  | .checkoutRooms sender supplierId ids =>
      (checkout s sender supplierId ids).map (fun r => r.1)
  | .cancel sender supplierId id penalty refundAmt charges =>
      (cancelRoom s sender supplierId id penalty refundAmt charges).map
        (fun r => r.1)
  | .refund sender supplierId ids owner =>
      (bookingRefund s sender supplierId ids owner).map (fun r => r.1)

/-- Execute a sequence of operations; a reverted call leaves the state
unchanged (EVM transaction semantics). -/
def run (s : BukState) : List Op → BukState
  | [] => s
  | op :: rest =>
      run (match step s op with | .ok s1 => s1 | .error _ => s) rest

/-- `true` iff the call completed without reverting. -/
def okOf {α : Type} : Except BukError α → Bool
  | .ok _ => true
  | .error _ => false

/-- The per-key token-id/status invariant (amended form of the spec's
invariant): `booked`/`nil` bookings carry token id 0; `confirmed` and
`expired` bookings carry token id equal to their (positive) key; a
`cancelled` booking carries either 0 (cancelled from `booked` via
`bookingRefund`) or its key (cancelled from `confirmed` via `cancelRoom`,
which does not clear the token id). -/
def TokenInvAt (k : Nat) (b : Booking) : Prop :=
  (b.status = .nil → b.tokenID = 0) ∧
  (b.status = .booked → b.tokenID = 0) ∧
  (b.status = .confirmed → b.tokenID = k ∧ 1 ≤ k) ∧
  (b.status = .expired → b.tokenID = k ∧ 1 ≤ k) ∧
  (b.status = .cancelled → b.tokenID = 0 ∨ (b.tokenID = k ∧ 1 ≤ k))

/-- Counter well-formedness: every key beyond the booking counter is still
unset (`nil`), as in any state reachable from deployment. -/
def WF (s : BukState) : Prop :=
  ∀ k, s.bookingIds < k → (s.bookingDetails k).status = .nil

/-- Reachable-state invariant: counter well-formedness, key 0 unset, and
the per-key token-id invariant. -/
def Good (s : BukState) : Prop :=
  WF s ∧ (s.bookingDetails 0).status = .nil ∧
    ∀ k, TokenInvAt k (s.bookingDetails k)

/-- The unique status edge each operation may move an existing booking
along: creation (`nil` to `booked`) for `bookRoom`, `booked` to
`confirmed` for `confirmRoom`, `confirmed` to `expired` for `checkout`,
`confirmed` to `cancelled` for `cancelRoom`, and `booked` to `cancelled`
for `bookingRefund`. -/
def opEdge : Op → BookingStatus × BookingStatus
  | .book _ _ _ _ _ _ _ _ _ => (.nil, .booked)
  | .confirm _ _ _ _ _ => (.booked, .confirmed)
  | .checkoutRooms _ _ _ => (.confirmed, .expired)
  | .cancel _ _ _ _ _ _ => (.confirmed, .cancelled)
  | .refund _ _ _ _ => (.booked, .cancelled)

/-- A `booked` booking record at key `k` for supplier 1 owned by address 5,
used in concrete witnesses. -/
def bookedAt (k : Nat) : Booking :=
  ⟨k, .booked, 0, 5, 1, 1000, 2000, 10, 100⟩

/-- `s0` with eleven `booked` bookings (ids 1..11, owner 5, supplier 1). -/
def sBooked : BukState :=
  { s0 with
    bookingIds := 11,
    bookingDetails := fun k =>
      if 1 ≤ k ∧ k ≤ 11 then bookedAt k else Booking.empty }

/-- `s0` with one `confirmed` booking (id 1, owner 5, supplier 1, token id
1, check-in time 1000) whose token (amount 1) sits on supplier 1's ledger,
plus a transfer lock of 100 seconds on (supplier 1, token 1). -/
def sConfirmed : BukState :=
  { s0 with
    bookingIds := 1,
    bookingDetails := fun k =>
      if k = 1 then ⟨1, .confirmed, 1, 5, 1, 1000, 2000, 10, 100⟩
      else Booking.empty,
    timeLocks := fun sId nftId => if sId = 1 ∧ nftId = 1 then 100 else 0,
    ledgers := fun a =>
      if a = 100 then
        { emptyLedger 200 with
          balances := fun acct k => if acct = 5 ∧ k = 1 then 1 else 0 }
      else if a = 101 then emptyLedger 201
      else emptyLedger 0 }

/-- A state in which booking 1 is stored with supplier id 1 but its token
(amount 1) was minted on supplier 2's ledger (address 101), as happens when
`confirmRoom` is called with a supplier id different from the booking's
stored one. -/
def sCross : BukState :=
  { s0 with
    bookingIds := 1,
    bookingDetails := fun k =>
      if k = 1 then ⟨1, .confirmed, 1, 5, 1, 1000, 2000, 10, 100⟩
      else Booking.empty,
    ledgers := fun a =>
      if a = 101 then
        { emptyLedger 201 with
          balances := fun acct k => if acct = 5 ∧ k = 1 then 1 else 0 }
      else if a = 100 then emptyLedger 200
      else emptyLedger 0 }

/-- The commission-leg transfer `bookRoom` issues first. -/
def commissionLeg (s : BukState) (sender : Address) (count : Nat)
    (baseRates : List Nat) : Transfer :=
  ⟨sender, s.buk_wallet, commissionTotalOf s.commission (baseRates.take count)⟩

/-- The principal-leg transfer `bookRoom` issues when the commission leg
reported success. -/
def principalLeg (s : BukState) (sender : Address) (count : Nat)
    (totals : List Nat) : Transfer :=
  ⟨sender, s.treasury, (totals.take count).sum⟩

/-- The exact sequence of `transferFrom` calls `bookRoom` issues, as a
function of the two reported outcomes: on success both legs; on a
principal-leg failure both legs followed by the two reversal calls; on a
commission-leg failure the commission leg followed by one reversal call. -/
def bookLog (s : BukState) (sender : Address) (count : Nat)
    (totals baseRates : List Nat) (commissionOk paymentOk : Bool) :
    List Transfer :=
  if commissionOk then
    if paymentOk then
      [commissionLeg s sender count baseRates,
       principalLeg s sender count totals]
    else
      [commissionLeg s sender count baseRates,
       principalLeg s sender count totals,
       ⟨s.buk_wallet, sender,
         commissionTotalOf s.commission (baseRates.take count)⟩,
       ⟨s.treasury, sender, (totals.take count).sum⟩]
  else
    [commissionLeg s sender count baseRates,
     ⟨s.buk_wallet, sender,
       commissionTotalOf s.commission (baseRates.take count)⟩]

theorem booking_update_collapse (b : Booking) (x z : BookingStatus) (y w : Nat) :
    ({ { b with status := x, tokenID := y } with
       status := z, tokenID := w } : Booking) =
      { b with status := z, tokenID := w } := rfl

theorem booking_status_collapse (b : Booking) (x z : BookingStatus) :
    ({ { b with status := x } with status := z } : Booking) =
      { b with status := z } := rfl

theorem bookLoop_counter_total_comm (sender : Address)
    (supplierId checkin checkout_ commission : Nat) :
    ∀ (pairs : List (Nat × Nat)) (ids : Nat) (bd : Nat → Booking)
      (tot comm : Nat),
      (bookLoop sender supplierId checkin checkout_ commission
          pairs ids bd tot comm).1 = ids + pairs.length ∧
      (bookLoop sender supplierId checkin checkout_ commission
          pairs ids bd tot comm).2.2.1 = tot + (pairs.map Prod.fst).sum ∧
      (bookLoop sender supplierId checkin checkout_ commission
          pairs ids bd tot comm).2.2.2 =
        comm + commissionTotalOf commission (pairs.map Prod.snd)
  | [], ids, bd, tot, comm => by
      simp [bookLoop, commissionTotalOf]
  | (t, r) :: rest, ids, bd, tot, comm => by
      have ih := bookLoop_counter_total_comm sender supplierId checkin
        checkout_ commission rest (ids + 1)
        (fun j => if j = ids + 1 then
          ⟨ids + 1, .booked, 0, sender, supplierId, checkin, checkout_, t, r⟩
          else bd j)
        (tot + t) (comm + r * commission / 100)
      simp only [bookLoop, commissionTotalOf, List.map_cons, List.sum_cons,
        List.length_cons] at ih ⊢
      refine ⟨?_, ?_, ?_⟩
      · rw [ih.1]; omega
      · rw [ih.2.1]; omega
      · rw [ih.2.2]; omega

theorem bookLoop_bd_old (sender : Address)
    (supplierId checkin checkout_ commission : Nat) :
    ∀ (pairs : List (Nat × Nat)) (ids : Nat) (bd : Nat → Booking)
      (tot comm k : Nat),
      k ≤ ids ∨ ids + pairs.length < k →
      (bookLoop sender supplierId checkin checkout_ commission
          pairs ids bd tot comm).2.1 k = bd k
  | [], ids, bd, tot, comm, k, _ => by simp [bookLoop]
  | (t, r) :: rest, ids, bd, tot, comm, k, hk => by
      have hne : k ≠ ids + 1 := by simp at hk; omega
      have ih := bookLoop_bd_old sender supplierId checkin checkout_
        commission rest (ids + 1)
        (fun j => if j = ids + 1 then
          ⟨ids + 1, .booked, 0, sender, supplierId, checkin, checkout_, t, r⟩
          else bd j)
        (tot + t) (comm + r * commission / 100) k
        (by simp at hk ⊢; omega)
      simp only [bookLoop]
      rw [ih]
      simp [hne]

theorem bookLoop_bd_new (sender : Address)
    (supplierId checkin checkout_ commission : Nat) :
    ∀ (pairs : List (Nat × Nat)) (ids : Nat) (bd : Nat → Booking)
      (tot comm k : Nat),
      ids < k → k ≤ ids + pairs.length →
      ∃ t r, (bookLoop sender supplierId checkin checkout_ commission
          pairs ids bd tot comm).2.1 k =
        ⟨k, .booked, 0, sender, supplierId, checkin, checkout_, t, r⟩
  | [], ids, bd, tot, comm, k, h1, h2 => by simp at h1 h2; omega
  | (t, r) :: rest, ids, bd, tot, comm, k, h1, h2 => by
      by_cases hk : k = ids + 1
      · refine ⟨t, r, ?_⟩
        simp only [bookLoop]
        rw [bookLoop_bd_old sender supplierId checkin checkout_ commission
          rest (ids + 1) _ _ _ k (Or.inl (le_of_eq hk))]
        simp [hk]
      · have := bookLoop_bd_new sender supplierId checkin checkout_
          commission rest (ids + 1)
          (fun j => if j = ids + 1 then
            ⟨ids + 1, .booked, 0, sender, supplierId, checkin, checkout_, t, r⟩
            else bd j)
          (tot + t) (comm + r * commission / 100) k
          (by omega) (by simp at h2 ⊢; omega)
        simpa [bookLoop] using this

theorem confirmValidate_eq_none_iff (sender : Address) (bd : Nat → Booking) :
    ∀ ids : List Nat,
      confirmValidate sender bd ids = none ↔
        ∀ i ∈ ids, (bd i).status = .booked ∧ (bd i).owner = sender
  | [] => by simp [confirmValidate]
  | i :: rest => by
      by_cases h1 : (bd i).status = BookingStatus.booked
      · by_cases h2 : (bd i).owner = sender
        · simp [confirmValidate, h1, h2,
            confirmValidate_eq_none_iff sender bd rest]
        · simp [confirmValidate, h1, h2]
      · simp [confirmValidate, h1]

theorem confirmValidate_bad_status (sender : Address) (bd : Nat → Booking) :
    ∀ ids : List Nat, (∀ i ∈ ids, (bd i).owner = sender) →
      ∀ i0 ∈ ids, (bd i0).status ≠ .booked →
      confirmValidate sender bd ids = some (.state "Check the Booking status")
  | [], _, i0, hmem, _ => by simp at hmem
  | j :: rest, hown, i0, hmem, hbad => by
      by_cases h1 : (bd j).status = BookingStatus.booked
      · have hj : (bd j).owner = sender := hown j (by simp)
        have hi0 : i0 ∈ rest := by
          rcases List.mem_cons.mp hmem with h | h
          · exact absurd (h ▸ h1) hbad
          · exact h
        simp only [confirmValidate, h1]
        simp [hj]
        exact confirmValidate_bad_status sender bd rest
          (fun i hi => hown i (by simp [hi])) i0 hi0 hbad
      · simp [confirmValidate, h1]

theorem confirmLoop_bd (nftStatus : Bool) :
    ∀ (pairs : List (Nat × String)) (bd : Nat → Booking) (led : LedgerState)
      (log : List MintCall) (k : Nat),
      (confirmLoop nftStatus pairs bd led log).1 k =
        if k ∈ pairs.map Prod.fst then
          { bd k with status := .confirmed, tokenID := k }
        else bd k
  | [], bd, led, log, k => by simp [confirmLoop]
  | (i, u) :: rest, bd, led, log, k => by
      simp only [confirmLoop]
      by_cases hk : k = i
      · by_cases hr : k ∈ rest.map Prod.fst
        · rw [confirmLoop_bd nftStatus rest _ _ _ k]
          simp [hk, hr]
        · rw [confirmLoop_bd nftStatus rest _ _ _ k]
          simp [hk, hr]
      · by_cases hr : k ∈ rest.map Prod.fst
        · rw [confirmLoop_bd nftStatus rest _ _ _ k]
          simp [hk, hr]
        · rw [confirmLoop_bd nftStatus rest _ _ _ k]
          simp [hk, hr]

theorem confirmLoop_log (nftStatus : Bool) :
    ∀ (pairs : List (Nat × String)) (bd : Nat → Booking) (led : LedgerState)
      (log : List MintCall),
      (confirmLoop nftStatus pairs bd led log).2.2 =
        log.reverse ++
          pairs.map (fun p => ⟨p.1, (bd p.1).owner, 1, p.2, nftStatus⟩)
  | [], bd, led, log => by simp [confirmLoop]
  | (i, u) :: rest, bd, led, log => by
      simp only [confirmLoop]
      rw [confirmLoop_log nftStatus rest _ _ _]
      simp only [List.reverse_cons, List.map_cons]
      rw [List.append_assoc]
      congr 1
      simp only [List.singleton_append]
      congr 1
      apply List.map_congr_left
      intro p _
      by_cases hp : p.1 = i <;> simp [hp]

theorem confirmRoom_ok_iff (s : BukState) (sender : Address) (supplierId : Nat)
    (ids : List Nat) (uris : List String) (nftStatus : Bool) :
    okOf (confirmRoom s sender supplierId ids uris nftStatus) = true ↔
      ((s.suppliers supplierId).status = true ∧
       (∀ i ∈ ids, (s.bookingDetails i).status = .booked ∧
         (s.bookingDetails i).owner = sender) ∧
       ids.length = uris.length ∧ ids.length < 11) := by
  unfold confirmRoom
  split
  case isTrue hact =>
    cases hv : confirmValidate sender s.bookingDetails ids with
    | some e =>
        have hnall : ¬ ∀ i ∈ ids, (s.bookingDetails i).status = .booked ∧
            (s.bookingDetails i).owner = sender := by
          intro hall
          rw [← confirmValidate_eq_none_iff sender s.bookingDetails ids] at hall
          simp [hall] at hv
        simp [hv, okOf, hnall, hact]
    | none =>
        have hall := (confirmValidate_eq_none_iff sender
          s.bookingDetails ids).mp hv
        simp only [hv]
        split
        case isTrue hlen =>
          split
          case isTrue hcap =>
            simp only [okOf, hact, true_and]
            exact iff_of_true trivial ⟨hall, hlen, hcap⟩
          case isFalse hcap =>
            simp only [okOf, hact, true_and]
            exact iff_of_false (by simp) (fun h => hcap h.2.2)
        case isFalse hlen => simp [okOf, hact, hall, hlen]
  case isFalse hact => simp [okOf, hact]

theorem confirmRoom_ok_dest (s : BukState) (sender : Address)
    (supplierId : Nat) (ids : List Nat) (uris : List String)
    (nftStatus : Bool) (s1 : BukState) (log : List MintCall) :
    confirmRoom s sender supplierId ids uris nftStatus = .ok (s1, log) →
      (∀ k, s1.bookingDetails k =
        if k ∈ ids then
          { s.bookingDetails k with status := .confirmed, tokenID := k }
        else s.bookingDetails k) ∧
      log = (ids.zip uris).map
        (fun p => ⟨p.1, (s.bookingDetails p.1).owner, 1, p.2, nftStatus⟩) ∧
      (∀ a, a ≠ (s.suppliers supplierId).supplier_contract →
        s1.ledgers a = s.ledgers a) ∧
      s1.bookingIds = s.bookingIds ∧ s1.suppliers = s.suppliers ∧
      s1.isAdmin = s.isAdmin ∧ s1.utils = s.utils ∧
      s1.timeLocks = s.timeLocks ∧ s1.commission = s.commission ∧
      s1.buk_wallet = s.buk_wallet ∧ s1.treasury = s.treasury := by
  unfold confirmRoom
  split
  case isTrue hact =>
    cases hv : confirmValidate sender s.bookingDetails ids with
    | some e => simp [hv]
    | none =>
      simp only [hv]
      split
      next hlen =>
        split
        next hcap =>
          intro hok
          have hfst : (ids.zip uris).map Prod.fst = ids :=
            List.map_fst_zip ids uris (le_of_eq hlen)
          injection hok with hpair
          injection hpair with hs1 hlog
          subst hs1
          subst hlog
          refine ⟨?_, ?_, ?_, rfl, rfl, rfl, rfl, rfl, rfl, rfl, rfl⟩
          · intro k
            simp only []
            rw [confirmLoop_bd, hfst]
          · rw [confirmLoop_log]
            simp
          · intro a ha
            simp [ha]
        next hcap => intro h; simp at h
      next hlen => intro h; simp at h
  case isFalse hact => intro h; simp at h

theorem checkoutValidate_eq_none_iff (bd : Nat → Booking) :
    ∀ ids : List Nat,
      checkoutValidate bd ids = none ↔
        ∀ i ∈ ids, (bd i).status = .confirmed
  | [] => by simp [checkoutValidate]
  | i :: rest => by
      by_cases h1 : (bd i).status = BookingStatus.confirmed
      · simp [checkoutValidate, h1, checkoutValidate_eq_none_iff bd rest]
      · simp [checkoutValidate, h1]

theorem checkoutValidate_bad (bd : Nat → Booking) :
    ∀ ids : List Nat, ∀ i0 ∈ ids, (bd i0).status ≠ .confirmed →
      checkoutValidate bd ids = some (.state "Check the Booking status")
  | [], i0, hmem, _ => by simp at hmem
  | j :: rest, i0, hmem, hbad => by
      by_cases h1 : (bd j).status = BookingStatus.confirmed
      · have hi0 : i0 ∈ rest := by
          rcases List.mem_cons.mp hmem with h | h
          · exact absurd (h ▸ h1) hbad
          · exact h
        simp only [checkoutValidate, h1]
        simp
        exact checkoutValidate_bad bd rest i0 hi0 hbad
      · simp [checkoutValidate, h1]

theorem checkoutLoop_ok_bd (ledgerAddr : Address) :
    ∀ (ids : List Nat) (bd : Nat → Booking) (led : LedgerState)
      (us : UtilState) (log : List BurnCall) (bd1 : Nat → Booking)
      (led1 : LedgerState) (us1 : UtilState) (log1 : List BurnCall),
      checkoutLoop ledgerAddr ids bd led us log = .ok (bd1, led1, us1, log1) →
      ∀ k, bd1 k =
        if k ∈ ids then { bd k with status := .expired } else bd k
  | [], bd, led, us, log, bd1, led1, us1, log1 => by
      intro hok k
      simp only [checkoutLoop] at hok
      injection hok with h
      injection h with h1 h2
      simp [← h1]
  | i :: rest, bd, led, us, log, bd1, led1, us1, log1 => by
      intro hok k
      simp only [checkoutLoop] at hok
      split at hok
      next e heq => simp at hok
      next led2 us2 heq =>
        have := checkoutLoop_ok_bd ledgerAddr rest
          (fun j => if j = i then { bd i with status := .expired } else bd j)
          led2 us2 _ bd1 led1 us1 log1 hok k
        rw [this]
        by_cases hk : k = i <;> by_cases hr : k ∈ rest <;>
          simp [hk, hr]

theorem checkout_ok_dest (s : BukState) (sender : Address)
    (supplierId : Nat) (ids : List Nat) (s1 : BukState)
    (log : List BurnCall) :
    checkout s sender supplierId ids = .ok (s1, log) →
      s.isAdmin sender = true ∧
      (s.suppliers supplierId).status = true ∧
      ids.length < 11 ∧
      (∀ i ∈ ids, (s.bookingDetails i).status = .confirmed) ∧
      (∀ k, s1.bookingDetails k =
        if k ∈ ids then { s.bookingDetails k with status := .expired }
        else s.bookingDetails k) ∧
      (∀ a, a ≠ (s.suppliers supplierId).supplier_contract →
        s1.ledgers a = s.ledgers a) ∧
      s1.bookingIds = s.bookingIds ∧ s1.suppliers = s.suppliers ∧
      s1.isAdmin = s.isAdmin ∧ s1.timeLocks = s.timeLocks ∧
      s1.commission = s.commission := by
  unfold checkout
  split
  case isTrue hadm =>
    split
    case isTrue hact =>
      split
      next hcap =>
        cases hv : checkoutValidate s.bookingDetails ids with
        | some e => simp [hv]
        | none =>
          simp only [hv]
          intro hok
          split at hok
          next e heq => simp at hok
          next bd2 led2 us2 log2 heq =>
            injection hok with hpair
            injection hpair with hs1 hlog
            subst hs1
            refine ⟨hadm, hact, hcap, ?_, ?_, ?_, rfl, rfl, rfl, rfl, rfl⟩
            · exact (checkoutValidate_eq_none_iff
                s.bookingDetails ids).mp hv
            · intro k
              exact checkoutLoop_ok_bd _ ids s.bookingDetails _ _ _
                bd2 led2 us2 log2 heq k
            · intro a ha
              simp [ha]
      next hcap => intro h; simp at h
    case isFalse hact => intro h; simp at h
  case isFalse hadm => intro h; simp at h

theorem refundStatusValidate_eq_none_iff (bd : Nat → Booking) :
    ∀ ids : List Nat,
      refundStatusValidate bd ids = none ↔
        ∀ i ∈ ids, (bd i).status = .booked
  | [] => by simp [refundStatusValidate]
  | i :: rest => by
      by_cases h1 : (bd i).status = BookingStatus.booked
      · simp [refundStatusValidate, h1,
          refundStatusValidate_eq_none_iff bd rest]
      · simp [refundStatusValidate, h1]

theorem refundStatusValidate_bad (bd : Nat → Booking) :
    ∀ ids : List Nat, ∀ i0 ∈ ids, (bd i0).status ≠ .booked →
      refundStatusValidate bd ids =
        some (.state "Check the Booking status")
  | [], i0, hmem, _ => by simp at hmem
  | j :: rest, i0, hmem, hbad => by
      by_cases h1 : (bd j).status = BookingStatus.booked
      · have hi0 : i0 ∈ rest := by
          rcases List.mem_cons.mp hmem with h | h
          · exact absurd (h ▸ h1) hbad
          · exact h
        simp only [refundStatusValidate, h1]
        simp
        exact refundStatusValidate_bad bd rest i0 hi0 hbad
      · simp [refundStatusValidate, h1]

theorem refundOwnerValidate_eq_none_iff (owner : Address)
    (bd : Nat → Booking) :
    ∀ ids : List Nat,
      refundOwnerValidate owner bd ids = none ↔
        ∀ i ∈ ids, (bd i).owner = owner
  | [] => by simp [refundOwnerValidate]
  | i :: rest => by
      by_cases h1 : (bd i).owner = owner
      · simp [refundOwnerValidate, h1,
          refundOwnerValidate_eq_none_iff owner bd rest]
      · simp [refundOwnerValidate, h1]

theorem refundLoop_bd (commission : Nat) :
    ∀ (ids : List Nat) (bd : Nat → Booking) (tot : Nat) (k : Nat),
      (refundLoop commission ids bd tot).1 k =
        if k ∈ ids then { bd k with status := .cancelled } else bd k
  | [], bd, tot, k => by simp [refundLoop]
  | i :: rest, bd, tot, k => by
      simp only [refundLoop]
      rw [refundLoop_bd commission rest _ _ k]
      by_cases hk : k = i <;> by_cases hr : k ∈ rest <;> simp [hk, hr]

theorem bookingRefund_ok_iff (s : BukState) (sender : Address)
    (supplierId : Nat) (ids : List Nat) (owner : Address) :
    okOf (bookingRefund s sender supplierId ids owner) = true ↔
      (s.isAdmin sender = true ∧ (s.suppliers supplierId).status = true ∧
       (∀ i ∈ ids, (s.bookingDetails i).status = .booked) ∧
       (∀ i ∈ ids, (s.bookingDetails i).owner = owner)) := by
  unfold bookingRefund
  split
  case isTrue hadm =>
    split
    case isTrue hact =>
      cases hv : refundStatusValidate s.bookingDetails ids with
      | some e =>
          have hns : ¬ ∀ i ∈ ids, (s.bookingDetails i).status = .booked := by
            intro hall
            rw [← refundStatusValidate_eq_none_iff s.bookingDetails ids]
              at hall
            simp [hall] at hv
          simp [hv, okOf, hns]
      | none =>
          have hs := (refundStatusValidate_eq_none_iff
            s.bookingDetails ids).mp hv
          simp only [hv]
          cases hw : refundOwnerValidate owner s.bookingDetails ids with
          | some e =>
              have hno : ¬ ∀ i ∈ ids, (s.bookingDetails i).owner = owner := by
                intro hall
                rw [← refundOwnerValidate_eq_none_iff owner
                  s.bookingDetails ids] at hall
                simp [hall] at hw
              simp [hw, okOf, hno]
          | none =>
              have ho := (refundOwnerValidate_eq_none_iff owner
                s.bookingDetails ids).mp hw
              simp only [hw, okOf, hadm, hact, true_and]
              exact iff_of_true trivial ⟨hs, ho⟩
    case isFalse hact => simp [okOf, hact]
  case isFalse hadm => simp [okOf, hadm]

theorem bookingRefund_ok_dest (s : BukState) (sender : Address)
    (supplierId : Nat) (ids : List Nat) (owner : Address)
    (s1 : BukState) (rf : RefundCall) :
    bookingRefund s sender supplierId ids owner = .ok (s1, rf) →
      (∀ k, s1.bookingDetails k =
        if k ∈ ids then { s.bookingDetails k with status := .cancelled }
        else s.bookingDetails k) ∧
      rf.recipient = owner ∧
      s1.bookingIds = s.bookingIds ∧ s1.suppliers = s.suppliers ∧
      s1.isAdmin = s.isAdmin ∧ s1.ledgers = s.ledgers ∧
      s1.utils = s.utils ∧ s1.commission = s.commission := by
  unfold bookingRefund
  split
  case isTrue hadm =>
    split
    case isTrue hact =>
      cases hv : refundStatusValidate s.bookingDetails ids with
      | some e => simp [hv]
      | none =>
        simp only [hv]
        cases hw : refundOwnerValidate owner s.bookingDetails ids with
        | some e => simp [hw]
        | none =>
          simp only [hw]
          intro hok
          injection hok with hpair
          injection hpair with hs1 hrf
          subst hs1
          refine ⟨?_, ?_, rfl, rfl, rfl, rfl, rfl, rfl⟩
          · intro k
            exact refundLoop_bd s.commission ids s.bookingDetails 0 k
          · rw [← hrf]
    case isFalse hact => intro h; simp at h
  case isFalse hadm => intro h; simp at h

theorem cancelRoom_ok_dest (s : BukState) (sender : Address)
    (supplierId id penalty refundAmt charges : Nat) (s1 : BukState)
    (refunds : List RefundCall) (bc : BurnCall) :
    cancelRoom s sender supplierId id penalty refundAmt charges =
      .ok (s1, refunds, bc) →
      s.isAdmin sender = true ∧
      (s.suppliers supplierId).status = true ∧
      (s.bookingDetails id).status = .confirmed ∧
      (∀ k, s1.bookingDetails k =
        if k = id then { s.bookingDetails id with status := .cancelled }
        else s.bookingDetails k) ∧
      refunds = [⟨penalty,
          (s.suppliers (s.bookingDetails id).supplierId).supplier_owner⟩,
        ⟨refundAmt, (s.bookingDetails id).owner⟩,
        ⟨charges, s.buk_wallet⟩] ∧
      (∀ a, a ≠ (s.suppliers supplierId).supplier_contract →
        s1.ledgers a = s.ledgers a) ∧
      s1.bookingIds = s.bookingIds ∧ s1.suppliers = s.suppliers ∧
      s1.isAdmin = s.isAdmin ∧ s1.commission = s.commission := by
  unfold cancelRoom
  split
  case isTrue hadm =>
    split
    case isTrue hact =>
      split
      next hst =>
        intro hok
        dsimp only [] at hok
        split at hok
        next e heq => simp at hok
        next led2 us2 heq =>
          injection hok with hpair
          injection hpair with hs1 hrest
          injection hrest with hrefunds hbc
          subst hs1
          refine ⟨hadm, hact, hst, ?_, ?_, ?_, rfl, rfl, rfl, rfl⟩
          · intro k
            by_cases hk : k = id <;> simp [hk]
          · rw [← hrefunds]
            simp
          · intro a ha
            simp [ha]
      next hst => intro h; simp at h
    case isFalse hact => intro h; simp at h
  case isFalse hadm => intro h; simp at h

theorem bookRoom_eq_ok (s : BukState) (sender : Address)
    (supplierId count : Nat) (totals baseRates : List Nat)
    (checkin checkout_ : Nat) (commissionOk paymentOk : Bool)
    (hact : (s.suppliers supplierId).status = true)
    (hlen1 : count ≤ totals.length) (hlen2 : count ≤ baseRates.length) :
    ∃ s1 : BukState,
      bookRoom s sender supplierId count totals baseRates checkin checkout_
          commissionOk paymentOk =
        .ok (s1, bookLog s sender count totals baseRates commissionOk
          paymentOk, commissionOk && paymentOk) ∧
      s1.bookingIds = s.bookingIds + count ∧
      s1.ledgers = s.ledgers ∧ s1.utils = s.utils ∧
      s1.suppliers = s.suppliers ∧ s1.isAdmin = s.isAdmin ∧
      s1.timeLocks = s.timeLocks ∧ s1.commission = s.commission ∧
      s1.buk_wallet = s.buk_wallet ∧ s1.treasury = s.treasury ∧
      (∀ k, k ≤ s.bookingIds ∨ s.bookingIds + count < k →
        s1.bookingDetails k = s.bookingDetails k) ∧
      (∀ k, s.bookingIds < k → k ≤ s.bookingIds + count →
        ∃ t r, s1.bookingDetails k =
          ⟨k, .booked, 0, sender, supplierId, checkin, checkout_, t, r⟩) := by
  have hzlen : ((totals.take count).zip (baseRates.take count)).length
      = count := by
    simp [List.length_zip, List.length_take]
    omega
  have hfst : ((totals.take count).zip (baseRates.take count)).map Prod.fst
      = totals.take count := by
    apply List.map_fst_zip
    simp [List.length_take]
    omega
  have hsnd : ((totals.take count).zip (baseRates.take count)).map Prod.snd
      = baseRates.take count := by
    apply List.map_snd_zip
    simp [List.length_take]
    omega
  have hloop := bookLoop_counter_total_comm sender supplierId checkin
    checkout_ s.commission ((totals.take count).zip (baseRates.take count))
    s.bookingIds s.bookingDetails 0 0
  refine ⟨{ s with
      bookingIds := s.bookingIds + count,
      bookingDetails := (bookLoop sender supplierId checkin checkout_
        s.commission ((totals.take count).zip (baseRates.take count))
        s.bookingIds s.bookingDetails 0 0).2.1 }, ?_, by simp, by simp,
    by simp, by simp, by simp, by simp, by simp, by simp, by simp, ?_, ?_⟩
  · unfold bookRoom
    rw [if_pos (by rw [hact]), if_pos ⟨hlen1, hlen2⟩]
    dsimp only []
    rw [hloop.1, hloop.2.1, hloop.2.2, hfst, hsnd]
    simp only [Nat.zero_add]
    cases commissionOk <;> cases paymentOk <;>
      simp [bookLog, commissionLeg, principalLeg] <;> omega
  · intro k hk
    simp only []
    rw [bookLoop_bd_old sender supplierId checkin checkout_ s.commission _
      _ _ _ _ k (by rw [hzlen]; exact hk)]
  · intro k hk1 hk2
    simp only []
    exact bookLoop_bd_new sender supplierId checkin checkout_ s.commission
      _ _ _ _ _ k hk1 (by rw [hzlen]; exact hk2)

theorem confirmRoom_cap_reject (s : BukState) (sender : Address)
    (supplierId : Nat) (ids : List Nat) (uris : List String)
    (nftStatus : Bool)
    (hact : (s.suppliers supplierId).status = true)
    (hall : ∀ i ∈ ids, (s.bookingDetails i).status = .booked ∧
      (s.bookingDetails i).owner = sender)
    (hlen : ids.length = uris.length) (hcap : 11 ≤ ids.length) :
    confirmRoom s sender supplierId ids uris nftStatus =
      .error (.validation "Exceeds max room booking limit") := by
  have hv : confirmValidate sender s.bookingDetails ids = none :=
    (confirmValidate_eq_none_iff sender s.bookingDetails ids).mpr hall
  unfold confirmRoom
  rw [if_pos (by rw [hact]), hv]
  rw [if_pos hlen, if_neg (by omega)]

theorem confirmRoom_state_reject (s : BukState) (sender : Address)
    (supplierId : Nat) (ids : List Nat) (uris : List String)
    (nftStatus : Bool)
    (hact : (s.suppliers supplierId).status = true)
    (hown : ∀ i ∈ ids, (s.bookingDetails i).owner = sender)
    (i0 : Nat) (hmem : i0 ∈ ids)
    (hbad : (s.bookingDetails i0).status ≠ .booked) :
    confirmRoom s sender supplierId ids uris nftStatus =
      .error (.state "Check the Booking status") := by
  have hv := confirmValidate_bad_status sender s.bookingDetails ids hown
    i0 hmem hbad
  unfold confirmRoom
  rw [if_pos (by rw [hact]), hv]

theorem checkout_cap_reject (s : BukState) (sender : Address)
    (supplierId : Nat) (ids : List Nat)
    (hadm : s.isAdmin sender = true)
    (hact : (s.suppliers supplierId).status = true)
    (hcap : 11 ≤ ids.length) :
    checkout s sender supplierId ids =
      .error (.validation "Exceeds max room booking limit") := by
  unfold checkout
  rw [if_pos (by rw [hadm]), if_pos (by rw [hact]), if_neg (by omega)]

theorem checkout_state_reject (s : BukState) (sender : Address)
    (supplierId : Nat) (ids : List Nat)
    (hadm : s.isAdmin sender = true)
    (hact : (s.suppliers supplierId).status = true)
    (hcap : ids.length < 11)
    (i0 : Nat) (hmem : i0 ∈ ids)
    (hbad : (s.bookingDetails i0).status ≠ .confirmed) :
    checkout s sender supplierId ids =
      .error (.state "Check the Booking status") := by
  have hv := checkoutValidate_bad s.bookingDetails ids i0 hmem hbad
  unfold checkout
  rw [if_pos (by rw [hadm]), if_pos (by rw [hact]), if_pos hcap, hv]

theorem cancelRoom_state_reject (s : BukState) (sender : Address)
    (supplierId id penalty refundAmt charges : Nat)
    (hadm : s.isAdmin sender = true)
    (hact : (s.suppliers supplierId).status = true)
    (hbad : (s.bookingDetails id).status ≠ .confirmed) :
    cancelRoom s sender supplierId id penalty refundAmt charges =
      .error (.state "Supplier not registered") := by
  unfold cancelRoom
  rw [if_pos (by rw [hadm]), if_pos (by rw [hact]), if_neg hbad]

theorem bookingRefund_state_reject (s : BukState) (sender : Address)
    (supplierId : Nat) (ids : List Nat) (owner : Address)
    (hadm : s.isAdmin sender = true)
    (hact : (s.suppliers supplierId).status = true)
    (i0 : Nat) (hmem : i0 ∈ ids)
    (hbad : (s.bookingDetails i0).status ≠ .booked) :
    bookingRefund s sender supplierId ids owner =
      .error (.state "Check the Booking status") := by
  have hv := refundStatusValidate_bad s.bookingDetails ids i0 hmem hbad
  unfold bookingRefund
  rw [if_pos (by rw [hadm]), if_pos (by rw [hact]), hv]

theorem bookRoom_ok_inv (s : BukState) (sender : Address)
    (supplierId count : Nat) (totals baseRates : List Nat)
    (checkin checkout_ : Nat) (commissionOk paymentOk : Bool)
    (s1 : BukState) (log : List Transfer) (ret : Bool) :
    bookRoom s sender supplierId count totals baseRates checkin checkout_
        commissionOk paymentOk = .ok (s1, log, ret) →
      (s.suppliers supplierId).status = true ∧ count ≤ totals.length ∧
      count ≤ baseRates.length ∧
      log = bookLog s sender count totals baseRates commissionOk paymentOk ∧
      ret = (commissionOk && paymentOk) ∧
      s1.bookingIds = s.bookingIds + count ∧
      (∀ k, k ≤ s.bookingIds ∨ s.bookingIds + count < k →
        s1.bookingDetails k = s.bookingDetails k) ∧
      (∀ k, s.bookingIds < k → k ≤ s.bookingIds + count →
        ∃ t r, s1.bookingDetails k =
          ⟨k, .booked, 0, sender, supplierId, checkin, checkout_, t, r⟩) ∧
      s1.ledgers = s.ledgers ∧ s1.utils = s.utils ∧
      s1.suppliers = s.suppliers ∧ s1.isAdmin = s.isAdmin ∧
      s1.timeLocks = s.timeLocks ∧ s1.commission = s.commission := by
  intro hok
  have hact : (s.suppliers supplierId).status = true := by
    by_contra h
    unfold bookRoom at hok
    rw [if_neg h] at hok
    simp at hok
  have hb : count ≤ totals.length ∧ count ≤ baseRates.length := by
    by_contra h
    unfold bookRoom at hok
    rw [if_pos (by rw [hact]), if_neg h] at hok
    simp at hok
  obtain ⟨s2, heq, hids, hled, hut, hsup, hadm, htl, hcom, hbw, htr,
    hold, hnew⟩ := bookRoom_eq_ok s sender supplierId count totals
    baseRates checkin checkout_ commissionOk paymentOk hact hb.1 hb.2
  rw [heq] at hok
  injection hok with hpair
  injection hpair with h1 hrest
  injection hrest with h2 h3
  subst h1
  exact ⟨hact, hb.1, hb.2, h2.symm, h3.symm, hids, hold, hnew, hled, hut,
    hsup, hadm, htl, hcom⟩

end BukTrips

open BukTrips

/-- C9: on the utility ledger every single and batch transfer is rejected
with the `NonTransferable` error, for all callers, token ids, amounts, and
prior states; no sequence of utility-ledger operations (mint, setURI,
transfers) can make any utility token transferable. -/
theorem c9_utility_transfers_always_rejected :
    ∀ (us : UtilState) (ops : List SupplierUtilityContract.UtilOp)
      (caller sender recipient : Address) (id amount : Nat)
      (ids amounts : List Nat),
      SupplierUtilityContract.safeTransferFrom
          (SupplierUtilityContract.applyOps us ops) caller sender recipient
          id amount =
        .error (.validation "NonTransferable: Token transfer not allowed.") ∧
      SupplierUtilityContract.safeBatchTransferFrom
          (SupplierUtilityContract.applyOps us ops) caller sender recipient
          ids amounts =
        .error (.validation "NonTransferable: Token transfer not allowed.") :=
  fun _ _ _ _ _ _ _ _ _ => ⟨rfl, rfl⟩

/-- C7: whenever `bookRoom` completes, the commission-leg transfer it
issues first carries the sum, over the booked rooms, of
`baseRate[i] * commission / 100` with truncating integer division applied
per room; concretely, base rates `[100, 200]` at commission 5 give 15 and a
single base rate 101 at commission 5 gives exactly 5. -/
theorem c7_commission_per_room_truncation :
    (∀ (s : BukState) (sender : Address) (supplierId count : Nat)
      (totals baseRates : List Nat) (checkin checkout_ : Nat)
      (commissionOk paymentOk : Bool) (s1 : BukState)
      (log : List Transfer) (ret : Bool),
      bookRoom s sender supplierId count totals baseRates checkin checkout_
          commissionOk paymentOk = .ok (s1, log, ret) →
      log.head? = some ⟨sender, s.buk_wallet,
        commissionTotalOf s.commission (baseRates.take count)⟩) ∧
    (∀ (commission : Nat) (baseRates : List Nat),
      commissionTotalOf commission baseRates =
        (baseRates.map (fun r => r * commission / 100)).sum) ∧
    commissionTotalOf 5 [100, 200] = 15 ∧
    commissionTotalOf 5 [101] = 5 := by
  refine ⟨?_, fun _ _ => rfl, by decide, by decide⟩
  intro s sender supplierId count totals baseRates checkin checkout_
    commissionOk paymentOk s1 log ret hok
  obtain ⟨-, -, -, hlog, -⟩ := bookRoom_ok_inv s sender supplierId count
    totals baseRates checkin checkout_ commissionOk paymentOk s1 log ret hok
  rw [hlog]
  cases commissionOk <;> cases paymentOk <;>
    simp [bookLog, commissionLeg]

/-- Witness for C7: a concrete successful `bookRoom` call on `s0` with base
rates `[100, 200]` and commission 5 whose first issued transfer carries 15. -/
theorem c7_witness :
    ∃ (s1 : BukState) (log : List Transfer) (ret : Bool),
      bookRoom s0 5 1 2 [100, 100] [100, 200] 10 20 true true =
        .ok (s1, log, ret) ∧
      log.head? = some ⟨5, 9, 15⟩ := by
  obtain ⟨s1, heq, -⟩ := bookRoom_eq_ok s0 5 1 2 [100, 100] [100, 200]
    10 20 true true rfl (by decide) (by decide)
  refine ⟨s1, _, _, heq, ?_⟩
  have h := c7_commission_per_room_truncation.1 s0 5 1 2 [100, 100]
    [100, 200] 10 20 true true s1 _ _ heq
  exact h.trans (by decide)

/-- C1 counterexample: on `s0` (no bookings, counter 0) a `bookRoom` call
whose commission-leg transfer reports failure still returns normally with
result `false`, yet the booking counter has advanced to 1 and a `booked`
record now sits at id 1 — the claim that the booking table and counter are
exactly as before is false. -/
theorem c1_counterexample :
    s0.bookingIds = 0 ∧ (s0.bookingDetails 1).status = .nil ∧
    (bookRoom s0 5 1 1 [100] [100] 1000 2000 false false).map
        (fun r => (r.2.2, r.1.bookingIds, (r.1.bookingDetails 1).status)) =
      .ok (false, 1, .booked) :=
  ⟨rfl, rfl, rfl⟩

/-- C1 (amended): when the commission-leg transfer reports failure,
`bookRoom` returns `false` and issues one reversal transfer (the commission
total from the protocol wallet to the caller), but the booking records
created earlier in the call remain: the counter advances by `count` and the
`count` fresh records are in `booked` status. -/
theorem c1_commission_failure_keeps_bookings :
    ∀ (s : BukState) (sender : Address) (supplierId count : Nat)
      (totals baseRates : List Nat) (checkin checkout_ : Nat)
      (paymentOk : Bool),
      (s.suppliers supplierId).status = true →
      count ≤ totals.length → count ≤ baseRates.length →
      ∃ s1, bookRoom s sender supplierId count totals baseRates checkin
          checkout_ false paymentOk =
          .ok (s1,
            [commissionLeg s sender count baseRates,
             ⟨s.buk_wallet, sender,
               commissionTotalOf s.commission (baseRates.take count)⟩],
            false) ∧
        s1.bookingIds = s.bookingIds + count ∧
        (∀ k, s.bookingIds < k → k ≤ s.bookingIds + count →
          ∃ t r, s1.bookingDetails k =
            ⟨k, .booked, 0, sender, supplierId, checkin, checkout_, t, r⟩) ∧
        (∀ k, k ≤ s.bookingIds ∨ s.bookingIds + count < k →
          s1.bookingDetails k = s.bookingDetails k) := by
  intro s sender supplierId count totals baseRates checkin checkout_
    paymentOk hact h1 h2
  obtain ⟨s1, heq, hids, -, -, -, -, -, -, -, -, hold, hnew⟩ :=
    bookRoom_eq_ok s sender supplierId count totals baseRates checkin
      checkout_ false paymentOk hact h1 h2
  refine ⟨s1, ?_, hids, hnew, hold⟩
  rw [heq]
  simp [bookLog]

/-- Witness for C1 (amended): concrete commission-failure call on `s0`. -/
theorem c1_witness :
    ∃ s1, bookRoom s0 5 1 1 [100] [100] 1000 2000 false false =
        .ok (s1,
          [commissionLeg s0 5 1 [100],
           ⟨s0.buk_wallet, 5, commissionTotalOf s0.commission
             ([100].take 1)⟩],
          false) ∧
      s1.bookingIds = s0.bookingIds + 1 ∧
      (∀ k, s0.bookingIds < k → k ≤ s0.bookingIds + 1 →
        ∃ t r, s1.bookingDetails k = ⟨k, .booked, 0, 5, 1, 1000, 2000, t, r⟩) ∧
      (∀ k, k ≤ s0.bookingIds ∨ s0.bookingIds + 1 < k →
        s1.bookingDetails k = s0.bookingDetails k) :=
  c1_commission_failure_keeps_bookings s0 5 1 1 [100] [100] 1000 2000
    false rfl (by decide) (by decide)

/-- C3 counterexample: with the commission leg succeeding and the principal
leg failing, `bookRoom` issues four `transferFrom` calls: the two forward
legs and then TWO inverse transfers (commission back from the protocol
wallet and the principal back from the treasury), not exactly one.  The
claim is false on this input. -/
theorem c3_counterexample :
    (bookRoom s0 5 1 2 [100, 100] [100, 200] 10 20 true false).map
        (fun r => r.2.1) =
      .ok [⟨5, 9, 15⟩, ⟨5, 7, 200⟩, ⟨9, 5, 15⟩, ⟨7, 5, 200⟩] := rfl

/-- C3 (amended): when the commission leg succeeds and the principal leg
fails, `bookRoom` issues TWO inverse transfers — the commission total from
the protocol wallet back to the caller AND the principal total from the
treasury back to the caller — and reports failure without deleting the
already-created booking records; when the commission leg itself fails, one
further transfer is still issued, attempting to send the commission total
from the protocol wallet to the caller (a reversal of a transfer that never
succeeded). -/
theorem c3_reversal_transfers :
    ∀ (s : BukState) (sender : Address) (supplierId count : Nat)
      (totals baseRates : List Nat) (checkin checkout_ : Nat),
      (s.suppliers supplierId).status = true →
      count ≤ totals.length → count ≤ baseRates.length →
      (∃ s1, bookRoom s sender supplierId count totals baseRates checkin
          checkout_ true false =
          .ok (s1,
            [commissionLeg s sender count baseRates,
             principalLeg s sender count totals,
             ⟨s.buk_wallet, sender,
               commissionTotalOf s.commission (baseRates.take count)⟩,
             ⟨s.treasury, sender, (totals.take count).sum⟩],
            false) ∧
          s1.bookingIds = s.bookingIds + count ∧
          (∀ k, s.bookingIds < k → k ≤ s.bookingIds + count →
            ∃ t r, s1.bookingDetails k =
              ⟨k, .booked, 0, sender, supplierId, checkin, checkout_,
                t, r⟩)) ∧
      (∀ paymentOk, ∃ s1,
        bookRoom s sender supplierId count totals baseRates checkin
            checkout_ false paymentOk =
          .ok (s1,
            [commissionLeg s sender count baseRates,
             ⟨s.buk_wallet, sender,
               commissionTotalOf s.commission (baseRates.take count)⟩],
            false)) := by
  intro s sender supplierId count totals baseRates checkin checkout_
    hact h1 h2
  constructor
  · obtain ⟨s1, heq, hids, -, -, -, -, -, -, -, -, -, hnew⟩ :=
      bookRoom_eq_ok s sender supplierId count totals baseRates checkin
        checkout_ true false hact h1 h2
    refine ⟨s1, ?_, hids, hnew⟩
    rw [heq]
    simp [bookLog]
  · intro paymentOk
    obtain ⟨s1, heq, -⟩ :=
      bookRoom_eq_ok s sender supplierId count totals baseRates checkin
        checkout_ false paymentOk hact h1 h2
    refine ⟨s1, ?_⟩
    rw [heq]
    simp [bookLog]

/-- Witness for C3 (amended): concrete calls on `s0`. -/
theorem c3_witness :
    (∃ s1, bookRoom s0 5 1 2 [100, 100] [100, 200] 10 20 true false =
        .ok (s1,
          [commissionLeg s0 5 2 [100, 200], principalLeg s0 5 2 [100, 100],
           ⟨s0.buk_wallet, 5, commissionTotalOf s0.commission
             ([100, 200].take 2)⟩,
           ⟨s0.treasury, 5, ([100, 100].take 2).sum⟩],
          false) ∧
        s1.bookingIds = s0.bookingIds + 2 ∧
        (∀ k, s0.bookingIds < k → k ≤ s0.bookingIds + 2 →
          ∃ t r, s1.bookingDetails k =
            ⟨k, .booked, 0, 5, 1, 10, 20, t, r⟩)) ∧
    (∀ paymentOk, ∃ s1,
      bookRoom s0 5 2 2 [100, 100] [100, 200] 10 20 false paymentOk =
        .ok (s1,
          [commissionLeg s0 5 2 [100, 200],
           ⟨s0.buk_wallet, 5, commissionTotalOf s0.commission
             ([100, 200].take 2)⟩],
          false)) :=
  ⟨(c3_reversal_transfers s0 5 1 2 [100, 100] [100, 200] 10 20 rfl
      (by decide) (by decide)).1,
   (c3_reversal_transfers s0 5 2 2 [100, 100] [100, 200] 10 20 rfl
      (by decide) (by decide)).2⟩

/-- C4 counterexample: an 11-room `bookRoom` call and an 11-id
`bookingRefund` call both complete successfully — neither function has any
batch-size check, so the claim that every batch operation rejects 11 or
more items is false. -/
theorem c4_counterexample :
    okOf (bookRoom s0 5 1 11 (List.replicate 11 10)
      (List.replicate 11 100) 10 20 true true) = true ∧
    okOf (bookingRefund sBooked 1 1
      [1, 2, 3, 4, 5, 6, 7, 8, 9, 10, 11] 5) = true :=
  ⟨rfl, rfl⟩

/-- C4 (amended): only `confirmRoom` and `checkout` enforce the `< 11`
batch cap, rejecting 11 or more items with a `ValidationError` before any
mutation; `bookRoom` (over `count`) and `bookingRefund` (over `ids`) have
no batch-size cap at all and accept batches of 11 given their other
preconditions. -/
theorem c4_batch_size_caps :
    (∀ (s : BukState) (sender : Address) (supplierId : Nat)
      (ids : List Nat) (uris : List String) (nftStatus : Bool),
      (s.suppliers supplierId).status = true →
      (∀ i ∈ ids, (s.bookingDetails i).status = .booked ∧
        (s.bookingDetails i).owner = sender) →
      ids.length = uris.length → 11 ≤ ids.length →
      confirmRoom s sender supplierId ids uris nftStatus =
        .error (.validation "Exceeds max room booking limit")) ∧
    (∀ (s : BukState) (sender : Address) (supplierId : Nat)
      (ids : List Nat),
      s.isAdmin sender = true → (s.suppliers supplierId).status = true →
      11 ≤ ids.length →
      checkout s sender supplierId ids =
        .error (.validation "Exceeds max room booking limit")) ∧
    (∀ (s : BukState) (sender : Address) (supplierId count : Nat)
      (totals baseRates : List Nat) (checkin checkout_ : Nat)
      (commissionOk paymentOk : Bool),
      (s.suppliers supplierId).status = true →
      count ≤ totals.length → count ≤ baseRates.length →
      okOf (bookRoom s sender supplierId count totals baseRates checkin
        checkout_ commissionOk paymentOk) = true) ∧
    (∀ (s : BukState) (sender : Address) (supplierId : Nat)
      (ids : List Nat) (owner : Address),
      s.isAdmin sender = true → (s.suppliers supplierId).status = true →
      (∀ i ∈ ids, (s.bookingDetails i).status = .booked) →
      (∀ i ∈ ids, (s.bookingDetails i).owner = owner) →
      okOf (bookingRefund s sender supplierId ids owner) = true) := by
  refine ⟨?_, ?_, ?_, ?_⟩
  · intro s sender supplierId ids uris nftStatus hact hall hlen hcap
    exact confirmRoom_cap_reject s sender supplierId ids uris nftStatus
      hact hall hlen hcap
  · intro s sender supplierId ids hadm hact hcap
    exact checkout_cap_reject s sender supplierId ids hadm hact hcap
  · intro s sender supplierId count totals baseRates checkin checkout_
      commissionOk paymentOk hact h1 h2
    obtain ⟨s1, heq, -⟩ := bookRoom_eq_ok s sender supplierId count totals
      baseRates checkin checkout_ commissionOk paymentOk hact h1 h2
    rw [heq]
    rfl
  · intro s sender supplierId ids owner hadm hact hs ho
    exact (bookingRefund_ok_iff s sender supplierId ids owner).mpr
      ⟨hadm, hact, hs, ho⟩

/-- Witness for C4 (amended): concrete 11-item batches — rejected by
`confirmRoom` and `checkout`, accepted by `bookRoom` and `bookingRefund`. -/
theorem c4_witness :
    confirmRoom sBooked 5 1 [1, 2, 3, 4, 5, 6, 7, 8, 9, 10, 11]
        (List.replicate 11 "u") true =
      .error (.validation "Exceeds max room booking limit") ∧
    checkout s0 1 1 [1, 2, 3, 4, 5, 6, 7, 8, 9, 10, 11] =
      .error (.validation "Exceeds max room booking limit") ∧
    okOf (bookRoom s0 5 1 11 (List.replicate 11 10)
      (List.replicate 11 100) 10 20 true true) = true ∧
    okOf (bookingRefund sBooked 1 1
      [1, 2, 3, 4, 5, 6, 7, 8, 9, 10, 11] 5) = true :=
  ⟨c4_batch_size_caps.1 sBooked 5 1 _ _ true rfl (by decide) (by decide)
      (by decide),
   c4_batch_size_caps.2.1 s0 1 1 _ rfl rfl (by decide),
   c4_batch_size_caps.2.2.1 s0 5 1 11 _ _ 10 20 true true rfl (by decide)
      (by decide),
   c4_batch_size_caps.2.2.2 sBooked 1 1 _ 5 rfl rfl (by decide)
      (by decide)⟩

/-- C6: `confirmRoom` completes exactly when the supplier is active, every
targeted booking is `booked` and owned by the caller, the ids and uris
lists have equal length, and the batch has fewer than 11 items; on success
every targeted booking becomes `confirmed` with token id equal to its
booking id and one mint call of amount 1 is issued per item, while
untargeted bookings are untouched; an 11-item batch meeting every other
precondition is rejected with a `ValidationError` (and any rejection
reverts, so no booking in the batch changes state). -/
theorem c6_confirm_batch_atomicity :
    (∀ (s : BukState) (sender : Address) (supplierId : Nat)
      (ids : List Nat) (uris : List String) (nftStatus : Bool),
      okOf (confirmRoom s sender supplierId ids uris nftStatus) = true ↔
        ((s.suppliers supplierId).status = true ∧
         (∀ i ∈ ids, (s.bookingDetails i).status = .booked ∧
           (s.bookingDetails i).owner = sender) ∧
         ids.length = uris.length ∧ ids.length < 11)) ∧
    (∀ (s : BukState) (sender : Address) (supplierId : Nat)
      (ids : List Nat) (uris : List String) (nftStatus : Bool)
      (s1 : BukState) (log : List MintCall),
      confirmRoom s sender supplierId ids uris nftStatus = .ok (s1, log) →
      (∀ i ∈ ids, (s1.bookingDetails i).status = .confirmed ∧
        (s1.bookingDetails i).tokenID = i) ∧
      (∀ k, k ∉ ids → s1.bookingDetails k = s.bookingDetails k) ∧
      log = (ids.zip uris).map
        (fun p => ⟨p.1, (s.bookingDetails p.1).owner, 1, p.2,
          nftStatus⟩)) ∧
    (∀ (s : BukState) (sender : Address) (supplierId : Nat)
      (ids : List Nat) (uris : List String) (nftStatus : Bool),
      (s.suppliers supplierId).status = true →
      (∀ i ∈ ids, (s.bookingDetails i).status = .booked ∧
        (s.bookingDetails i).owner = sender) →
      ids.length = uris.length → ids.length = 11 →
      confirmRoom s sender supplierId ids uris nftStatus =
        .error (.validation "Exceeds max room booking limit")) := by
  refine ⟨confirmRoom_ok_iff, ?_, ?_⟩
  · intro s sender supplierId ids uris nftStatus s1 log hok
    obtain ⟨hbd, hlog, -⟩ := confirmRoom_ok_dest s sender supplierId ids
      uris nftStatus s1 log hok
    refine ⟨?_, ?_, hlog⟩
    · intro i hi
      rw [hbd i, if_pos hi]
      exact ⟨rfl, rfl⟩
    · intro k hk
      rw [hbd k, if_neg hk]
  · intro s sender supplierId ids uris nftStatus hact hall hlen hcap
    exact confirmRoom_cap_reject s sender supplierId ids uris nftStatus
      hact hall hlen (by omega)

/-- Witness for C6: on `sBooked`, a 2-item batch succeeds and produces the
expected statuses, token ids, and mint log; the same state rejects an
11-item batch with the `ValidationError`. -/
theorem c6_witness :
    okOf (confirmRoom sBooked 5 1 [1, 2] ["a", "b"] true) = true ∧
    (∃ (s1 : BukState) (log : List MintCall),
      confirmRoom sBooked 5 1 [1, 2] ["a", "b"] true = .ok (s1, log) ∧
      (s1.bookingDetails 1).status = .confirmed ∧
      (s1.bookingDetails 1).tokenID = 1 ∧
      (s1.bookingDetails 2).status = .confirmed ∧
      (s1.bookingDetails 2).tokenID = 2 ∧
      (s1.bookingDetails 3) = sBooked.bookingDetails 3 ∧
      log = [⟨1, 5, 1, "a", true⟩, ⟨2, 5, 1, "b", true⟩]) ∧
    confirmRoom sBooked 5 1 [1, 2, 3, 4, 5, 6, 7, 8, 9, 10, 11]
        (List.replicate 11 "u") true =
      .error (.validation "Exceeds max room booking limit") := by
  have h1 : okOf (confirmRoom sBooked 5 1 [1, 2] ["a", "b"] true) = true :=
    (c6_confirm_batch_atomicity.1 sBooked 5 1 [1, 2] ["a", "b"] true).mpr
      ⟨rfl, by decide, rfl, by decide⟩
  refine ⟨h1, ?_,
    c6_confirm_batch_atomicity.2.2 sBooked 5 1 _ _ true rfl (by decide)
      (by decide) (by decide)⟩
  cases hE : confirmRoom sBooked 5 1 [1, 2] ["a", "b"] true with
  | error e => rw [hE] at h1; simp [okOf] at h1
  | ok r =>
    obtain ⟨s1, log⟩ := r
    obtain ⟨hin, hout, hlog⟩ := c6_confirm_batch_atomicity.2.1 sBooked 5 1
      [1, 2] ["a", "b"] true s1 log hE
    refine ⟨s1, log, rfl, (hin 1 (by decide)).1,
      (hin 1 (by decide)).2, (hin 2 (by decide)).1, (hin 2 (by decide)).2,
      hout 3 (by decide), ?_⟩
    rw [hlog]
    decide

/-- C8: for a booking whose token is minted (`tokenID > 0`), a caller that
is an admin or the booking's owner, check-in time `T`, and lock duration
`L` on the booking's (supplier, token) pair, `toggleNFTStatus` succeeds
exactly when the current time is strictly below `T - L` (as integers; when
`L > T` the `uint256` subtraction reverts, so the call also fails), and on
success it sets the transferability flag on the booking's supplier's
ledger, touching no other ledger.  A failed call reverts, leaving every
flag unchanged. -/
theorem c8_transfer_lock_boundary :
    ∀ (s : BukState) (now : Nat) (sender : Address) (id : Nat)
      (status : Bool),
      (s.isAdmin sender = true ∨ sender = (s.bookingDetails id).owner) →
      0 < (s.bookingDetails id).tokenID →
      ((okOf (toggleNFTStatus s now sender id status) = true ↔
        (now : Int) < ((s.bookingDetails id).checkin : Int) -
          (s.timeLocks (s.bookingDetails id).supplierId id : Int)) ∧
       ∀ s1, toggleNFTStatus s now sender id status = .ok s1 →
         (s1.ledgers
           ((s.suppliers
             (s.bookingDetails id).supplierId).supplier_contract)
          ).transferable id = status ∧
         ∀ a, a ≠ (s.suppliers
             (s.bookingDetails id).supplierId).supplier_contract →
           s1.ledgers a = s.ledgers a) := by
  intro s now sender id status hacc htok
  unfold toggleNFTStatus
  rw [if_pos hacc, if_pos htok]
  by_cases hle : s.timeLocks (s.bookingDetails id).supplierId id ≤
      (s.bookingDetails id).checkin
  · rw [if_pos hle]
    by_cases hnow : now < (s.bookingDetails id).checkin -
        s.timeLocks (s.bookingDetails id).supplierId id
    · rw [if_pos hnow]
      constructor
      · exact iff_of_true rfl (by omega)
      · intro s1 h1
        injection h1 with h
        subst h
        constructor
        · simp [SupplierContract.toggleNFTStatus]
        · intro a ha
          simp [ha]
    · rw [if_neg hnow]
      constructor
      · exact iff_of_false (by simp [okOf]) (by omega)
      · intro s1 h1
        simp at h1
  · rw [if_neg hle]
    constructor
    · exact iff_of_false (by simp [okOf]) (by omega)
    · intro s1 h1
      simp at h1

/-- Witness for C8: on `sConfirmed` (check-in 1000, lock 100, so threshold
900) the owner's toggle succeeds at time 899 (flag set) and the call at
time 900 is not a success. -/
theorem c8_witness :
    (okOf (toggleNFTStatus sConfirmed 899 5 1 true) = true ↔
      ((899 : Nat) : Int) <
        ((sConfirmed.bookingDetails 1).checkin : Int) -
        (sConfirmed.timeLocks
          (sConfirmed.bookingDetails 1).supplierId 1 : Int)) ∧
    okOf (toggleNFTStatus sConfirmed 899 5 1 true) = true ∧
    (okOf (toggleNFTStatus sConfirmed 900 5 1 true) = true ↔
      ((900 : Nat) : Int) <
        ((sConfirmed.bookingDetails 1).checkin : Int) -
        (sConfirmed.timeLocks
          (sConfirmed.bookingDetails 1).supplierId 1 : Int)) ∧
    okOf (toggleNFTStatus sConfirmed 900 5 1 true) = false :=
  ⟨(c8_transfer_lock_boundary sConfirmed 899 5 1 true (Or.inr rfl)
      (by decide)).1,
   rfl,
   (c8_transfer_lock_boundary sConfirmed 900 5 1 true (Or.inr rfl)
      (by decide)).1,
   rfl⟩

theorem tokenInvAt_booked (k : Nat) (b : Booking)
    (hb : b.status = .booked) (ht : b.tokenID = 0) : TokenInvAt k b := by
  simp [TokenInvAt, hb, ht]

theorem tokenInvAt_confirmed (k : Nat) (b : Booking)
    (hb : b.status = .confirmed) (ht : b.tokenID = k) (hk : 1 ≤ k) :
    TokenInvAt k b := by
  simp [TokenInvAt, hb, ht, hk]

theorem tokenInvAt_expired (k : Nat) (b : Booking)
    (hb : b.status = .expired) (ht : b.tokenID = k) (hk : 1 ≤ k) :
    TokenInvAt k b := by
  simp [TokenInvAt, hb, ht, hk]

theorem tokenInvAt_cancelled (k : Nat) (b : Booking)
    (hb : b.status = .cancelled)
    (ht : b.tokenID = 0 ∨ (b.tokenID = k ∧ 1 ≤ k)) : TokenInvAt k b := by
  simp [TokenInvAt, hb]
  omega

theorem tokenInvAt_iff (k : Nat) (b : Booking) (h : TokenInvAt k b) :
    b.tokenID ≠ 0 ↔
      (b.status = .confirmed ∨ b.status = .expired ∨
       (b.status = .cancelled ∧ b.tokenID = k ∧ 1 ≤ k)) := by
  obtain ⟨h0, h1, h2, h3, h4⟩ := h
  constructor
  · intro hne
    cases hs : b.status with
    | nil => exact absurd (h0 hs) hne
    | booked => exact absurd (h1 hs) hne
    | confirmed => exact Or.inl rfl
    | expired => exact Or.inr (Or.inl rfl)
    | cancelled =>
        rcases h4 hs with h | h
        · exact absurd h hne
        · exact Or.inr (Or.inr ⟨rfl, h⟩)
  · rintro (hs | hs | ⟨hs, htk, hk⟩)
    · have := h2 hs; omega
    · have := h3 hs; omega
    · omega

theorem Good_step (s : BukState) (op : Op) (s1 : BukState)
    (hg : Good s) (hok : BukTrips.step s op = .ok s1) : Good s1 := by
  obtain ⟨hwf, h0, hinv⟩ := hg
  cases op with
  | book sender supplierId count totals baseRates checkin checkout_ c p =>
    simp only [step] at hok
    cases hb : bookRoom s sender supplierId count totals baseRates checkin
        checkout_ c p with
    | error e =>
        rw [hb] at hok
        exact Except.noConfusion (show (Except.error e :
          Except BukError BukState) = Except.ok s1 from hok)
    | ok r =>
      obtain ⟨sr, logr, retr⟩ := r
      rw [hb] at hok
      have hok2 : (Except.ok sr : Except BukError BukState) =
          Except.ok s1 := hok
      injection hok2 with hok
      obtain ⟨-, -, -, -, -, hids, hold, hnew, -⟩ :=
        bookRoom_ok_inv s sender supplierId count totals baseRates checkin
          checkout_ c p sr logr retr hb
      subst hok
      refine ⟨?_, ?_, ?_⟩
      · intro k hk
        rw [hids] at hk
        rw [hold k (Or.inr hk)]
        exact hwf k (by omega)
      · rw [hold 0 (Or.inl (by omega))]
        exact h0
      · intro k
        by_cases hr : s.bookingIds < k ∧ k ≤ s.bookingIds + count
        · obtain ⟨t, rr, hbk⟩ := hnew k hr.1 hr.2
          rw [hbk]
          exact tokenInvAt_booked k _ rfl rfl
        · rw [hold k (by omega)]
          exact hinv k
  | confirm sender supplierId ids uris nftStatus =>
    simp only [step] at hok
    cases hb : confirmRoom s sender supplierId ids uris nftStatus with
    | error e =>
        rw [hb] at hok
        exact Except.noConfusion (show (Except.error e :
          Except BukError BukState) = Except.ok s1 from hok)
    | ok r =>
      obtain ⟨sr, logr⟩ := r
      rw [hb] at hok
      have hok2 : (Except.ok sr : Except BukError BukState) =
          Except.ok s1 := hok
      injection hok2 with hok
      subst hok
      have hcond := (confirmRoom_ok_iff s sender supplierId ids uris
        nftStatus).mp (by rw [hb]; rfl)
      obtain ⟨hbd, -, -, hids, -⟩ := confirmRoom_ok_dest s sender
        supplierId ids uris nftStatus sr logr hb
      have hmemkey : ∀ k ∈ ids, 1 ≤ k ∧ k ≤ s.bookingIds := by
        intro k hk
        have hbooked := (hcond.2.1 k hk).1
        constructor
        · by_contra hlt
          have hk0 : k = 0 := by omega
          rw [hk0] at hbooked
          rw [h0] at hbooked
          exact BookingStatus.noConfusion hbooked
        · by_contra hgt
          have := hwf k (by omega)
          rw [this] at hbooked
          exact BookingStatus.noConfusion hbooked
      refine ⟨?_, ?_, ?_⟩
      · intro k hk
        rw [hids] at hk
        rw [hbd k, if_neg (fun hmem => by
          have := (hmemkey k hmem).2; omega)]
        exact hwf k hk
      · rw [hbd 0, if_neg (fun hmem => by
          have := (hmemkey 0 hmem).1; omega)]
        exact h0
      · intro k
        rw [hbd k]
        by_cases hk : k ∈ ids
        · rw [if_pos hk]
          exact tokenInvAt_confirmed k _ rfl rfl (hmemkey k hk).1
        · rw [if_neg hk]
          exact hinv k
  | checkoutRooms sender supplierId ids =>
    simp only [step] at hok
    cases hb : checkout s sender supplierId ids with
    | error e =>
        rw [hb] at hok
        exact Except.noConfusion (show (Except.error e :
          Except BukError BukState) = Except.ok s1 from hok)
    | ok r =>
      obtain ⟨sr, logr⟩ := r
      rw [hb] at hok
      have hok2 : (Except.ok sr : Except BukError BukState) =
          Except.ok s1 := hok
      injection hok2 with hok
      subst hok
      obtain ⟨-, -, -, hconf, hbd, -, hids, -⟩ := checkout_ok_dest s
        sender supplierId ids sr logr hb
      have hmemkey : ∀ k ∈ ids, (s.bookingDetails k).tokenID = k ∧
          1 ≤ k := by
        intro k hk
        exact (hinv k).2.2.1 (hconf k hk)
      refine ⟨?_, ?_, ?_⟩
      · intro k hk
        rw [hids] at hk
        rw [hbd k, if_neg (fun hmem => by
          have hc := hconf k hmem
          have := hwf k hk
          rw [this] at hc
          exact BookingStatus.noConfusion hc)]
        exact hwf k hk
      · rw [hbd 0, if_neg (fun hmem => by
          have hc := hconf 0 hmem
          rw [h0] at hc
          exact BookingStatus.noConfusion hc)]
        exact h0
      · intro k
        rw [hbd k]
        by_cases hk : k ∈ ids
        · rw [if_pos hk]
          exact tokenInvAt_expired k _ rfl (hmemkey k hk).1
            (hmemkey k hk).2
        · rw [if_neg hk]
          exact hinv k
  | cancel sender supplierId id penalty refundAmt charges =>
    simp only [step] at hok
    cases hb : cancelRoom s sender supplierId id penalty refundAmt
        charges with
    | error e =>
        rw [hb] at hok
        exact Except.noConfusion (show (Except.error e :
          Except BukError BukState) = Except.ok s1 from hok)
    | ok r =>
      obtain ⟨sr, logr⟩ := r
      rw [hb] at hok
      have hok2 : (Except.ok sr : Except BukError BukState) =
          Except.ok s1 := hok
      injection hok2 with hok
      subst hok
      obtain ⟨-, -, hconf, hbd, -, -, hids, -⟩ := cancelRoom_ok_dest s
        sender supplierId id penalty refundAmt charges sr logr.1 logr.2 hb
      have hkey : (s.bookingDetails id).tokenID = id ∧ 1 ≤ id :=
        (hinv id).2.2.1 hconf
      refine ⟨?_, ?_, ?_⟩
      · intro k hk
        rw [hids] at hk
        rw [hbd k, if_neg (fun hmem => by
          subst hmem
          have := hwf k hk
          rw [this] at hconf
          exact BookingStatus.noConfusion hconf)]
        exact hwf k hk
      · rw [hbd 0, if_neg (fun hmem => by
          rw [← hmem] at hconf
          rw [h0] at hconf
          exact BookingStatus.noConfusion hconf)]
        exact h0
      · intro k
        rw [hbd k]
        by_cases hk : k = id
        · rw [if_pos hk]
          subst hk
          exact tokenInvAt_cancelled k _ rfl (Or.inr hkey)
        · rw [if_neg hk]
          exact hinv k
  | refund sender supplierId ids owner =>
    simp only [step] at hok
    cases hb : bookingRefund s sender supplierId ids owner with
    | error e =>
        rw [hb] at hok
        exact Except.noConfusion (show (Except.error e :
          Except BukError BukState) = Except.ok s1 from hok)
    | ok r =>
      obtain ⟨sr, rfc⟩ := r
      rw [hb] at hok
      have hok2 : (Except.ok sr : Except BukError BukState) =
          Except.ok s1 := hok
      injection hok2 with hok
      subst hok
      have hcond := (bookingRefund_ok_iff s sender supplierId ids
        owner).mp (by rw [hb]; rfl)
      obtain ⟨hbd, -, hids, -⟩ := bookingRefund_ok_dest s sender
        supplierId ids owner sr rfc hb
      refine ⟨?_, ?_, ?_⟩
      · intro k hk
        rw [hids] at hk
        rw [hbd k, if_neg (fun hmem => by
          have hc := hcond.2.2.1 k hmem
          have := hwf k hk
          rw [this] at hc
          exact BookingStatus.noConfusion hc)]
        exact hwf k hk
      · rw [hbd 0, if_neg (fun hmem => by
          have hc := hcond.2.2.1 0 hmem
          rw [h0] at hc
          exact BookingStatus.noConfusion hc)]
        exact h0
      · intro k
        rw [hbd k]
        by_cases hk : k ∈ ids
        · rw [if_pos hk]
          have htk := (hinv k).2.1 (hcond.2.2.1 k hk)
          exact tokenInvAt_cancelled k _ rfl (Or.inl htk)
        · rw [if_neg hk]
          exact hinv k

theorem Good_run : ∀ (ops : List Op) (s : BukState), Good s →
    Good (run s ops)
  | [], s, hg => hg
  | op :: rest, s, hg => by
      simp only [run]
      cases hb : BukTrips.step s op with
      | error e => exact Good_run rest s hg
      | ok s1 => exact Good_run rest s1 (Good_step s op s1 hg hb)

/-- C2 counterexample: starting from `s0`, book a room, confirm it, then
cancel it via `cancelRoom` — the booking ends `cancelled` with token id
still 1 (not 0): `cancelRoom` never clears `tokenID`, so the claimed
iff (token id non-zero exactly for confirmed/expired, cancelled implies
token id 0) is false. -/
theorem c2_counterexample :
    ((run s0 [.book 5 1 1 [100] [100] 1000 2000 true true,
        .confirm 5 1 [1] ["u"] true,
        .cancel 1 1 1 10 20 30]).bookingDetails 1).status = .cancelled ∧
    ((run s0 [.book 5 1 1 [100] [100] 1000 2000 true true,
        .confirm 5 1 [1] ["u"] true,
        .cancel 1 1 1 10 20 30]).bookingDetails 1).tokenID = 1 :=
  ⟨rfl, rfl⟩

/-- C2 (amended): for every booking reachable by any sequence of the five
operations from a well-formed state, the token id is non-zero iff the
status is confirmed or expired, OR the status is cancelled with the token
id equal to the (positive) booking id; bookings cancelled from `booked`
via `bookingRefund` keep token id 0, while bookings cancelled from
`confirmed` via `cancelRoom` retain token id equal to the booking id. -/
theorem c2_token_id_invariant :
    ∀ (ops : List Op) (s : BukState), Good s →
      Good (run s ops) ∧
      ∀ k, ((run s ops).bookingDetails k).tokenID ≠ 0 ↔
        (((run s ops).bookingDetails k).status = .confirmed ∨
         ((run s ops).bookingDetails k).status = .expired ∨
         (((run s ops).bookingDetails k).status = .cancelled ∧
          ((run s ops).bookingDetails k).tokenID = k ∧ 1 ≤ k)) := by
  intro ops s hg
  have hgr := Good_run ops s hg
  exact ⟨hgr, fun k => tokenInvAt_iff k _ (hgr.2.2 k)⟩

/-- Witness for C2 (amended): `s0` is well-formed, and after booking,
confirming, and cancelling booking 1 the invariant holds of the resulting
state. -/
theorem c2_witness :
    Good (run s0 [.book 5 1 1 [100] [100] 1000 2000 true true,
        .confirm 5 1 [1] ["u"] true, .cancel 1 1 1 10 20 30]) ∧
    ∀ k, ((run s0 [.book 5 1 1 [100] [100] 1000 2000 true true,
        .confirm 5 1 [1] ["u"] true,
        .cancel 1 1 1 10 20 30]).bookingDetails k).tokenID ≠ 0 ↔
      (((run s0 [.book 5 1 1 [100] [100] 1000 2000 true true,
          .confirm 5 1 [1] ["u"] true,
          .cancel 1 1 1 10 20 30]).bookingDetails k).status = .confirmed ∨
       ((run s0 [.book 5 1 1 [100] [100] 1000 2000 true true,
          .confirm 5 1 [1] ["u"] true,
          .cancel 1 1 1 10 20 30]).bookingDetails k).status = .expired ∨
       (((run s0 [.book 5 1 1 [100] [100] 1000 2000 true true,
          .confirm 5 1 [1] ["u"] true,
          .cancel 1 1 1 10 20 30]).bookingDetails k).status = .cancelled ∧
        ((run s0 [.book 5 1 1 [100] [100] 1000 2000 true true,
          .confirm 5 1 [1] ["u"] true,
          .cancel 1 1 1 10 20 30]).bookingDetails k).tokenID = k ∧
        1 ≤ k)) :=
  c2_token_id_invariant
    [.book 5 1 1 [100] [100] 1000 2000 true true,
     .confirm 5 1 [1] ["u"] true, .cancel 1 1 1 10 20 30] s0
    ⟨fun _ _ => rfl, rfl,
     fun _ => ⟨fun _ => rfl, fun h => BookingStatus.noConfusion h,
       fun h => BookingStatus.noConfusion h,
       fun h => BookingStatus.noConfusion h,
       fun h => BookingStatus.noConfusion h⟩⟩

/-- C5: from any counter-well-formed state, every successful operation
changes each booking's status only along its operation's edge
(`nil`→`booked` at creation by `bookRoom`, `booked`→`confirmed` by
`confirmRoom`, `confirmed`→`expired` by `checkout`,
`confirmed`→`cancelled` by `cancelRoom`, `booked`→`cancelled` by
`bookingRefund`) or not at all; and each operation invoked on a booking in
any other source state is rejected with a `StateError` (a revert, so no
state changes). -/
theorem c5_status_state_machine :
    (∀ (s : BukState) (op : Op) (s1 : BukState), WF s →
      BukTrips.step s op = .ok s1 → ∀ k,
      (s1.bookingDetails k).status = (s.bookingDetails k).status ∨
      ((s.bookingDetails k).status, (s1.bookingDetails k).status) =
        opEdge op) ∧
    (∀ (s : BukState) (sender : Address) (supplierId : Nat)
      (ids : List Nat) (uris : List String) (nftStatus : Bool),
      (s.suppliers supplierId).status = true →
      (∀ i ∈ ids, (s.bookingDetails i).owner = sender) →
      ∀ i0 ∈ ids, (s.bookingDetails i0).status ≠ .booked →
      confirmRoom s sender supplierId ids uris nftStatus =
        .error (.state "Check the Booking status")) ∧
    (∀ (s : BukState) (sender : Address) (supplierId : Nat)
      (ids : List Nat),
      s.isAdmin sender = true → (s.suppliers supplierId).status = true →
      ids.length < 11 →
      ∀ i0 ∈ ids, (s.bookingDetails i0).status ≠ .confirmed →
      checkout s sender supplierId ids =
        .error (.state "Check the Booking status")) ∧
    (∀ (s : BukState) (sender : Address)
      (supplierId id penalty refundAmt charges : Nat),
      s.isAdmin sender = true → (s.suppliers supplierId).status = true →
      (s.bookingDetails id).status ≠ .confirmed →
      cancelRoom s sender supplierId id penalty refundAmt charges =
        .error (.state "Supplier not registered")) ∧
    (∀ (s : BukState) (sender : Address) (supplierId : Nat)
      (ids : List Nat) (owner : Address),
      s.isAdmin sender = true → (s.suppliers supplierId).status = true →
      ∀ i0 ∈ ids, (s.bookingDetails i0).status ≠ .booked →
      bookingRefund s sender supplierId ids owner =
        .error (.state "Check the Booking status")) := by
  refine ⟨?_, confirmRoom_state_reject, checkout_state_reject,
    cancelRoom_state_reject, bookingRefund_state_reject⟩
  intro s op s1 hwf hok k
  cases op with
  | book sender supplierId count totals baseRates checkin checkout_ c p =>
    simp only [step] at hok
    cases hb : bookRoom s sender supplierId count totals baseRates checkin
        checkout_ c p with
    | error e =>
        rw [hb] at hok
        exact Except.noConfusion (show (Except.error e :
          Except BukError BukState) = Except.ok s1 from hok)
    | ok r =>
      obtain ⟨sr, logr, retr⟩ := r
      rw [hb] at hok
      have hok2 : (Except.ok sr : Except BukError BukState) =
          Except.ok s1 := hok
      injection hok2 with hok
      subst hok
      obtain ⟨-, -, -, -, -, -, hold, hnew, -⟩ :=
        bookRoom_ok_inv s sender supplierId count totals baseRates checkin
          checkout_ c p sr logr retr hb
      by_cases hr : s.bookingIds < k ∧ k ≤ s.bookingIds + count
      · obtain ⟨t, rr, hbk⟩ := hnew k hr.1 hr.2
        right
        rw [hbk, hwf k hr.1]
        rfl
      · left
        rw [hold k (by omega)]
  | confirm sender supplierId ids uris nftStatus =>
    simp only [step] at hok
    cases hb : confirmRoom s sender supplierId ids uris nftStatus with
    | error e =>
        rw [hb] at hok
        exact Except.noConfusion (show (Except.error e :
          Except BukError BukState) = Except.ok s1 from hok)
    | ok r =>
      obtain ⟨sr, logr⟩ := r
      rw [hb] at hok
      have hok2 : (Except.ok sr : Except BukError BukState) =
          Except.ok s1 := hok
      injection hok2 with hok
      subst hok
      have hcond := (confirmRoom_ok_iff s sender supplierId ids uris
        nftStatus).mp (by rw [hb]; rfl)
      obtain ⟨hbd, -⟩ := confirmRoom_ok_dest s sender supplierId ids uris
        nftStatus sr logr hb
      by_cases hk : k ∈ ids
      · right
        rw [hbd k, if_pos hk, (hcond.2.1 k hk).1]
        rfl
      · left
        rw [hbd k, if_neg hk]
  | checkoutRooms sender supplierId ids =>
    simp only [step] at hok
    cases hb : checkout s sender supplierId ids with
    | error e =>
        rw [hb] at hok
        exact Except.noConfusion (show (Except.error e :
          Except BukError BukState) = Except.ok s1 from hok)
    | ok r =>
      obtain ⟨sr, logr⟩ := r
      rw [hb] at hok
      have hok2 : (Except.ok sr : Except BukError BukState) =
          Except.ok s1 := hok
      injection hok2 with hok
      subst hok
      obtain ⟨-, -, -, hconf, hbd, -⟩ := checkout_ok_dest s sender
        supplierId ids sr logr hb
      by_cases hk : k ∈ ids
      · right
        rw [hbd k, if_pos hk, hconf k hk]
        rfl
      · left
        rw [hbd k, if_neg hk]
  | cancel sender supplierId id penalty refundAmt charges =>
    simp only [step] at hok
    cases hb : cancelRoom s sender supplierId id penalty refundAmt
        charges with
    | error e =>
        rw [hb] at hok
        exact Except.noConfusion (show (Except.error e :
          Except BukError BukState) = Except.ok s1 from hok)
    | ok r =>
      obtain ⟨sr, logr⟩ := r
      rw [hb] at hok
      have hok2 : (Except.ok sr : Except BukError BukState) =
          Except.ok s1 := hok
      injection hok2 with hok
      subst hok
      obtain ⟨-, -, hconf, hbd, -⟩ := cancelRoom_ok_dest s sender
        supplierId id penalty refundAmt charges sr logr.1 logr.2 hb
      by_cases hk : k = id
      · right
        subst hk
        rw [hbd k, if_pos rfl, hconf]
        rfl
      · left
        rw [hbd k, if_neg hk]
  | refund sender supplierId ids owner =>
    simp only [step] at hok
    cases hb : bookingRefund s sender supplierId ids owner with
    | error e =>
        rw [hb] at hok
        exact Except.noConfusion (show (Except.error e :
          Except BukError BukState) = Except.ok s1 from hok)
    | ok r =>
      obtain ⟨sr, rfc⟩ := r
      rw [hb] at hok
      have hok2 : (Except.ok sr : Except BukError BukState) =
          Except.ok s1 := hok
      injection hok2 with hok
      subst hok
      have hcond := (bookingRefund_ok_iff s sender supplierId ids
        owner).mp (by rw [hb]; rfl)
      obtain ⟨hbd, -⟩ := bookingRefund_ok_dest s sender supplierId ids
        owner sr rfc hb
      by_cases hk : k ∈ ids
      · right
        rw [hbd k, if_pos hk, hcond.2.2.1 k hk]
        rfl
      · left
        rw [hbd k, if_neg hk]

/-- Witness for C5: a concrete successful `bookRoom` step from `s0` obeys
the edge property, and each operation applied to a booking in the wrong
source state is rejected with the `StateError` revert message. -/
theorem c5_witness :
    (∃ s1, BukTrips.step s0 (.book 5 1 1 [100] [100] 10 20 true true) =
        .ok s1 ∧
      ∀ k, (s1.bookingDetails k).status =
          (s0.bookingDetails k).status ∨
        ((s0.bookingDetails k).status, (s1.bookingDetails k).status) =
          opEdge (.book 5 1 1 [100] [100] 10 20 true true)) ∧
    confirmRoom sConfirmed 5 1 [1] ["u"] true =
      .error (.state "Check the Booking status") ∧
    checkout sBooked 1 1 [1] =
      .error (.state "Check the Booking status") ∧
    cancelRoom sBooked 1 1 1 5 5 5 =
      .error (.state "Supplier not registered") ∧
    bookingRefund sConfirmed 1 1 [1] 5 =
      .error (.state "Check the Booking status") :=
  ⟨⟨run s0 [.book 5 1 1 [100] [100] 10 20 true true], rfl,
    c5_status_state_machine.1 s0 (.book 5 1 1 [100] [100] 10 20 true true)
      (run s0 [.book 5 1 1 [100] [100] 10 20 true true])
      (fun _ _ => rfl) rfl⟩,
   c5_status_state_machine.2.1 sConfirmed 5 1 [1] ["u"] true rfl
     (by decide) 1 (by decide) (by decide),
   c5_status_state_machine.2.2.1 sBooked 1 1 [1] rfl rfl (by decide) 1
     (by decide) (by decide),
   c5_status_state_machine.2.2.2.1 sBooked 1 1 1 5 5 5 rfl rfl (by decide),
   c5_status_state_machine.2.2.2.2 sConfirmed 1 1 [1] 5 rfl rfl 1
     (by decide) (by decide)⟩

/-- C10: none of `confirmRoom`, `checkout`, `cancelRoom` compares the
`supplierId` argument with the supplier id stored in the targeted
bookings: `confirmRoom` succeeds under its usual preconditions even when
every targeted booking stores a different supplier id (the mismatch
hypothesis below is never needed for success), and on success each of the
three operations mutates the targeted bookings' state while touching no
ledger other than the one of the supplier passed as argument; moreover
`cancelRoom` pays the penalty to the owner of the booking's stored
supplier, not of the supplier argument. -/
theorem c10_missing_supplier_match_check :
    (∀ (s : BukState) (sender : Address) (supplierId : Nat)
      (ids : List Nat) (uris : List String) (nftStatus : Bool),
      (s.suppliers supplierId).status = true →
      (∀ i ∈ ids, (s.bookingDetails i).status = .booked ∧
        (s.bookingDetails i).owner = sender) →
      (∀ i ∈ ids, (s.bookingDetails i).supplierId ≠ supplierId) →
      ids.length = uris.length → ids.length < 11 →
      okOf (confirmRoom s sender supplierId ids uris nftStatus) = true) ∧
    (∀ (s : BukState) (sender : Address) (supplierId : Nat)
      (ids : List Nat) (uris : List String) (nftStatus : Bool)
      (s1 : BukState) (log : List MintCall),
      confirmRoom s sender supplierId ids uris nftStatus = .ok (s1, log) →
      (∀ i ∈ ids, (s1.bookingDetails i).status = .confirmed) ∧
      (∀ a, a ≠ (s.suppliers supplierId).supplier_contract →
        s1.ledgers a = s.ledgers a)) ∧
    (∀ (s : BukState) (sender : Address) (supplierId : Nat)
      (ids : List Nat) (s1 : BukState) (log : List BurnCall),
      checkout s sender supplierId ids = .ok (s1, log) →
      (∀ i ∈ ids, (s1.bookingDetails i).status = .expired) ∧
      (∀ a, a ≠ (s.suppliers supplierId).supplier_contract →
        s1.ledgers a = s.ledgers a)) ∧
    (∀ (s : BukState) (sender : Address)
      (supplierId id penalty refundAmt charges : Nat) (s1 : BukState)
      (refunds : List RefundCall) (bc : BurnCall),
      cancelRoom s sender supplierId id penalty refundAmt charges =
        .ok (s1, refunds, bc) →
      (s1.bookingDetails id).status = .cancelled ∧
      refunds = [⟨penalty,
          (s.suppliers (s.bookingDetails id).supplierId).supplier_owner⟩,
        ⟨refundAmt, (s.bookingDetails id).owner⟩,
        ⟨charges, s.buk_wallet⟩] ∧
      (∀ a, a ≠ (s.suppliers supplierId).supplier_contract →
        s1.ledgers a = s.ledgers a)) := by
  refine ⟨?_, ?_, ?_, ?_⟩
  · intro s sender supplierId ids uris nftStatus hact hall _hmismatch
      hlen hcap
    exact (confirmRoom_ok_iff s sender supplierId ids uris nftStatus).mpr
      ⟨hact, hall, hlen, hcap⟩
  · intro s sender supplierId ids uris nftStatus s1 log hok
    obtain ⟨hbd, -, hled, -⟩ := confirmRoom_ok_dest s sender supplierId
      ids uris nftStatus s1 log hok
    refine ⟨fun i hi => ?_, hled⟩
    rw [hbd i, if_pos hi]
  · intro s sender supplierId ids s1 log hok
    obtain ⟨-, -, -, -, hbd, hled, -⟩ := checkout_ok_dest s sender
      supplierId ids s1 log hok
    refine ⟨fun i hi => ?_, hled⟩
    rw [hbd i, if_pos hi]
  · intro s sender supplierId id penalty refundAmt charges s1 refunds
      bc hok
    obtain ⟨-, -, -, hbd, hrefunds, hled, -⟩ := cancelRoom_ok_dest s
      sender supplierId id penalty refundAmt charges s1 refunds bc hok
    refine ⟨?_, hrefunds, hled⟩
    rw [hbd id, if_pos rfl]

/-- Witness for C10: on `sBooked` (bookings stored with supplier id 1)
`confirmRoom` succeeds when called with supplier id 2; on `sCross`
(confirmed booking stored with supplier id 1, token on supplier 2's
ledger) `checkout` and `cancelRoom` called with supplier id 2 succeed,
mutating the booking, and `cancelRoom` pays the penalty to address 50 —
the owner of supplier 1, the booking's stored supplier — not to 51, the
owner of supplier 2. -/
theorem c10_witness :
    okOf (confirmRoom sBooked 5 2 [1] ["u"] true) = true ∧
    (∃ (s1 : BukState) (log : List BurnCall),
      checkout sCross 1 2 [1] = .ok (s1, log) ∧
      (s1.bookingDetails 1).status = .expired ∧
      ∀ a, a ≠ 101 → s1.ledgers a = sCross.ledgers a) ∧
    (∃ (s1 : BukState) (refunds : List RefundCall) (bc : BurnCall),
      cancelRoom sCross 1 2 1 7 8 9 = .ok (s1, refunds, bc) ∧
      refunds = [⟨7, 50⟩, ⟨8, 5⟩, ⟨9, 9⟩] ∧
      (s1.bookingDetails 1).status = .cancelled) := by
  refine ⟨c10_missing_supplier_match_check.1 sBooked 5 2 [1] ["u"] true
    rfl (by decide) (by decide) rfl (by decide), ?_, ?_⟩
  · have hok : okOf (checkout sCross 1 2 [1]) = true := rfl
    cases hE : checkout sCross 1 2 [1] with
    | error e => rw [hE] at hok; simp [okOf] at hok
    | ok r =>
      obtain ⟨s1, log⟩ := r
      obtain ⟨hst, hled⟩ := c10_missing_supplier_match_check.2.2.1 sCross
        1 2 [1] s1 log hE
      exact ⟨s1, log, rfl, hst 1 (by decide), fun a ha => hled a ha⟩
  · have hok : okOf (cancelRoom sCross 1 2 1 7 8 9) = true := rfl
    cases hE : cancelRoom sCross 1 2 1 7 8 9 with
    | error e => rw [hE] at hok; simp [okOf] at hok
    | ok r =>
      obtain ⟨s1, rest⟩ := r
      obtain ⟨refunds, bc⟩ := rest
      obtain ⟨hst, hrefunds, -⟩ :=
        c10_missing_supplier_match_check.2.2.2 sCross 1 2 1 7 8 9 s1
          refunds bc hE
      refine ⟨s1, refunds, bc, rfl, ?_, hst⟩
      rw [hrefunds]
      decide
